import Mathlib

/-!
# KHK tablebase generator (`KHK.cpp`)

A shallow embedding of the retrograde-analysis program for the ending
king + hawk against king.  Squares are C `int`s in the 0x88 board
representation and are modelled as `Int`; C integer division and remainder
truncate toward zero and are modelled by `Int.tdiv` and `Int.tmod`.
A position file is modelled as the list of its records, in file order.
-/

namespace KHK

/-- One line of a position file: white king, black king, hawk, white-to-move flag. -/
abbrev Rec := Int × Int × Int × Int

/-! ## Constants naming the symmetries of the board -/

def sym_id : Int := 1
def sym_x : Int := 2
def sym_y : Int := 3
def sym_d1 : Int := 4
def sym_d2 : Int := 5
def sym_r90 : Int := 6
def sym_r180 : Int := 7
def sym_r270 : Int := 8

/-! ## Board geometry -/

/-- Source `Is_Special_Square`: the ten squares allowed for the white king. -/
def Is_Special_Square (a : Int) : Bool :=
  a == 0 || a == 1 || a == 2 || a == 3 ||
    a == 17 || a == 18 || a == 19 || a == 34 || a == 35 || a == 51

/-- Source `Apply_Symmetry`: four reflections are implemented, every other
symmetry code falls to the final `return 0`. -/
def Apply_Symmetry (sym square : Int) : Int :=
  if sym = sym_d1 then
    Int.tdiv square 16 + Int.tmod square 16 * 16
  else if sym = sym_y then
    Int.tdiv square 16 * 16 + (7 - Int.tmod square 16)
  else if sym = sym_d2 then
    (7 - Int.tdiv square 16) + (7 - Int.tmod square 16) * 16
  else if sym = sym_x then
    Int.tmod square 16 + (7 - Int.tdiv square 16) * 16
  else
    0

/-- Source `Hawk_Attacks`: with the white king on `a`, does a hawk on `b`
attack `c`?  Knight leaps first, then the two diagonal directions, each
blocked only by the white king standing between.  The arithmetic is exact
integer arithmetic; `Hawk_Attacks_int32` below is the same function in 32-bit
arithmetic, and the two agree whenever `-2^30 ≤ a, b, c < 2^30`
(`Hawk_Attacks_int32_eq`), in particular on all squares. -/
def Hawk_Attacks (a b c : Int) : Bool :=
  if c == b - 33 || c == b - 31 || c == b - 18 || c == b - 14 ||
      c == b + 14 || c == b + 18 || c == b + 31 || c == b + 33 then
    true
  else if Int.tmod (c - b) 17 == 0 && c != b &&
      !(Int.tmod (c - a) 17 == 0 && decide (b < a) && decide (a < c)) &&
      !(Int.tmod (c - a) 17 == 0 && decide (c < a) && decide (a < b)) then
    true
  else if Int.tmod (c - b) 15 == 0 && c != b &&
      !(Int.tmod (c - a) 15 == 0 && decide (b < a) && decide (a < c)) &&
      !(Int.tmod (c - a) 15 == 0 && decide (c < a) && decide (a < b)) then
    true
  else
    false

/-- Source `On_Board`: `(a & 0x88) == 0`.  The mask reads bits 3 and 7 only,
so the two's-complement conjunction is taken on the low byte `a mod 2^8`
(`On_Board_eq_land` compares it with `Int.land` on all integers). -/
def On_Board (a : Int) : Bool :=
  Nat.land (a % 256).toNat 0x88 == 0

/-- Source `Adjacent`: the eight 0x88 king offsets. -/
def Adjacent (a b : Int) : Bool :=
  b == a + 1 || b == a - 1 || b == a - 17 || b == a - 16 || b == a - 15 ||
    b == a + 15 || b == a + 16 || b == a + 17

/-- The values taken by a loop `for (int a=-1; a<=1; a++)`. -/
def offsets : List Int := [-1, 0, 1]

/-- The values taken by a loop `for (int i=0x00; i<0x78; i++)`. -/
def squares_loop : List Int := List.map (fun n : Nat => (n : Int)) (List.range 0x78)

/-! ## Terminal positions -/

/-- Source `Black_Is_Mated`: the double loop returns `false` at the first
on-board square of the 3x3 block around `j` that is neither attacked by the
hawk nor adjacent to the white king. -/
def Black_Is_Mated (i j k white_on_move : Int) : Bool :=
  if white_on_move != 0 then false
  else
    offsets.all fun a => offsets.all fun b =>
      let c := j + b * 16 + a
      !(On_Board c && !(Hawk_Attacks i k c || Adjacent i c))

/-- Source `Is_Stalemate`: the same scan without the square `j` itself,
followed by the test that `j` is not attacked by the hawk. -/
def Is_Stalemate (i j k white_on_move : Int) : Bool :=
  if white_on_move != 0 then false
  else if
    (offsets.all fun a => offsets.all fun b =>
      let c := j + b * 16 + a
      !(On_Board c && c != j && !(Hawk_Attacks i k c || Adjacent i c))) then
    (if Hawk_Attacks i k j then false else true)
  else false

/-! ## Enumeration of the positions -/

/-- The two files written by `Create_KHK_Positions`. -/
structure Files where
  mate_file : List Rec
  pos_file : List Rec
deriving DecidableEq, Repr

/-- Body of the innermost loop of `Create_KHK_Positions` for one triple. -/
def Create_body (i j k : Int) (s : Files) : Files :=
  let s1 : Files :=
    if Black_Is_Mated i j k 0 then
      { s with mate_file := s.mate_file ++ [(i, j, k, 0)] }
    else
      { s with pos_file := s.pos_file ++ [(i, j, k, 0)] }
  if Hawk_Attacks i k j == false then
    { s1 with pos_file := s1.pos_file ++ [(i, j, k, 1)] }
  else s1

/-- The `k` loop of `Create_KHK_Positions`. -/
def Create_loop_k (i j : Int) (s : Files) : Files :=
  squares_loop.foldl
    (fun s k => if On_Board k && k != i && k != j then Create_body i j k s else s) s

/-- The `j` loop of `Create_KHK_Positions`. -/
def Create_loop_j (i : Int) (s : Files) : Files :=
  squares_loop.foldl
    (fun s j =>
      if On_Board j && j != i && (Adjacent i j == false) then Create_loop_k i j s else s) s

/-- Source `Create_KHK_Positions`: both files start empty. -/
def Create_KHK_Positions : Files :=
  squares_loop.foldl
    (fun s i => if On_Board i && Is_Special_Square i then Create_loop_j i s else s)
    { mate_file := [], pos_file := [] }

/-! ## Reading a position file -/

/-- Does a scan of the file `f` (the `while (!in_file.eof())` loops that
compare every line with a key) meet the record `(x, y, z, w)`? -/
def File_Has (f : List Rec) (x y z w : Int) : Bool :=
  f.any fun r => r.1 == x && r.2.1 == y && r.2.2.1 == z && r.2.2.2 == w

/-- The values of `(i, j, k, a)` seen by the body of the outer loop
`while (!current_file.eof()) { getline; ss_one >> i >> j >> k >> a; ... }`.
Every line of the file ends in a newline, so `eof` is only raised by the
`getline` that follows the last record; that iteration parses an empty line,
the four extractions fail and leave `i, j, k, a` (declared outside the loop)
at the values of the last record, and the body runs once more on them.
On an empty file the variables are uninitialised; no record is modelled. -/
def Lines_Read (f : List Rec) : List Rec :=
  f ++ f.getLast?.toList

/-- The pair of files written by one solver pass: the new depth set
`KHK.m` and the rewritten undecided set. -/
structure Pass where
  out_file : List Rec
  new_file : List Rec
deriving DecidableEq, Repr

/-! ## White retracts one ply -/

/-- The white-king, black-king and hawk squares looked up for a king
destination `d` in `White_One_Ply_More`: `d` itself when it is special,
otherwise the images under the symmetry chosen by the `if` chain on `d`
(no lookup when no branch applies). -/
def King_Retract_Key (d j k : Int) : Option (Int × Int × Int) :=
  if Is_Special_Square d then some (d, j, k)
  else if d == 4 || d == 20 || d == 36 || d == 52 then
    some (Apply_Symmetry sym_y d, Apply_Symmetry sym_y j, Apply_Symmetry sym_y k)
  else if d == 16 || d == 32 || d == 33 || d == 49 || d == 50 then
    some (Apply_Symmetry sym_d1 d, Apply_Symmetry sym_d1 j, Apply_Symmetry sym_d1 k)
  else if d == 67 then
    some (Apply_Symmetry sym_x d, Apply_Symmetry sym_x j, Apply_Symmetry sym_x k)
  else if d == 68 then
    some (Apply_Symmetry sym_d2 d, Apply_Symmetry sym_d2 j, Apply_Symmetry sym_d2 k)
  else if d == 66 then
    some (Apply_Symmetry sym_d1 (Apply_Symmetry sym_y d),
      Apply_Symmetry sym_d1 (Apply_Symmetry sym_y j),
      Apply_Symmetry sym_d1 (Apply_Symmetry sym_y k))
  else none

/-- The hawk loop of `White_One_Ply_More`: some square `b` the hawk attacks
from `k`, distinct from the three pieces, with `(i, j, b, 0)` in the old file. -/
def White_hawk_retraction (old : List Rec) (i j k : Int) : Bool :=
  squares_loop.any fun b =>
    On_Board b && Hawk_Attacks i k b && b != i && b != k && b != j && File_Has old i j b 0

/-- The king loops of `White_One_Ply_More`: some destination `d` next to `i`
whose lookup key is in the old file. -/
def White_king_retraction (old : List Rec) (i j k : Int) : Bool :=
  offsets.any fun b => offsets.any fun c =>
    let d := i + b * 16 + c
    On_Board d && d != i && d != j && d != k && !(Adjacent d j) &&
      match King_Retract_Key d j k with
      | some (p, q, r) => File_Has old p q r 0
      | none => false

/-- One iteration of the outer loop of `White_One_Ply_More`. -/
def White_step (old : List Rec) (s : Pass) (rec : Rec) : Pass :=
  let i := rec.1
  let j := rec.2.1
  let k := rec.2.2.1
  let a := rec.2.2.2
  if a == 0 then
    { s with new_file := s.new_file ++ [(i, j, k, a)] }
  else if White_hawk_retraction old i j k || White_king_retraction old i j k then
    { s with out_file := s.out_file ++ [(i, j, k, a)] }
  else
    { s with new_file := s.new_file ++ [(i, j, k, a)] }

/-- Source `White_One_Ply_More(m)`: `khk n` is the content of file `KHK.n`,
`current` the content of `KHK.pos`; the result is `KHK.m` and `KHK_alt.pos`. -/
def White_One_Ply_More (m : Int) (khk : Int → List Rec) (current : List Rec) : Pass :=
  (Lines_Read current).foldl (White_step (khk (m - 1))) { out_file := [], new_file := [] }

/-! ## Black retracts one ply -/

/-- The values taken by the loop `for (int p=1; p<=(m-1); p=p+2)`. -/
def odd_depths (m : Int) : List Int :=
  List.map (fun t : Nat => 1 + 2 * (t : Int)) (List.range (m / 2).toNat)

/-- The flag `so_far_so_good` after the two neighbour loops of
`Black_One_Ply_More`: every king destination that passes the filter is found
with white to move in one of the files `KHK.1, KHK.3, ...`. -/
def Black_so_far_so_good (m : Int) (khk : Int → List Rec) (i j k : Int) : Bool :=
  offsets.all fun b => offsets.all fun c =>
    let d := j + b * 16 + c
    if On_Board d && d != j && !(Adjacent i d) && !(Hawk_Attacks i d k) then
      (odd_depths m).any fun p => File_Has (khk p) i d k 1
    else true

/-- One iteration of the outer loop of `Black_One_Ply_More`. -/
def Black_step (m : Int) (khk : Int → List Rec) (s : Pass) (rec : Rec) : Pass :=
  let i := rec.1
  let j := rec.2.1
  let k := rec.2.2.1
  let a := rec.2.2.2
  let so_far_so_good := if a == 1 then false else Black_so_far_so_good m khk i j k
  if so_far_so_good && !(Is_Stalemate i j k a) then
    { s with out_file := s.out_file ++ [(i, j, k, a)] }
  else
    { s with new_file := s.new_file ++ [(i, j, k, a)] }

/-- Source `Black_One_Ply_More(m)`: `current` is the content of
`KHK_alt.pos`; the result is `KHK.m` and the rewritten `KHK.pos`. -/
def Black_One_Ply_More (m : Int) (khk : Int → List Rec) (current : List Rec) : Pass :=
  (Lines_Read current).foldl (Black_step m khk) { out_file := [], new_file := [] }

/-! ## Vocabulary of the specification -/

/-- A square of the 8x8 board: a value `0..0x77` that passes `On_Board`. -/
def Board_Square (s : Int) : Prop :=
  0 ≤ s ∧ s ≤ 0x77 ∧ On_Board s = true

instance (s : Int) : Decidable (Board_Square s) := by
  unfold Board_Square; infer_instance

/-- File of a square: `s mod 16`. -/
def file (s : Int) : Int := s % 16

/-- Rank of a square: `s div 16`. -/
def rank (s : Int) : Int := s / 16

/-- Application of a composition of symmetries, first element first. -/
def Apply_Word (w : List Int) (s : Int) : Int :=
  w.foldl (fun q g => Apply_Symmetry g q) s

/-- A composition built from the four reflections `Apply_Symmetry` implements. -/
def Sym_Word (w : List Int) : Prop :=
  ∀ g ∈ w, g = sym_x ∨ g = sym_y ∨ g = sym_d1 ∨ g = sym_d2

/-- The no-escape condition in the words of the specification: every
on-board square among the eight neighbours of `j` is attacked by the hawk or
adjacent to the white king. -/
def No_Escape (i j k : Int) : Prop :=
  ∀ a ∈ offsets, ∀ b ∈ offsets,
    j + 16 * b + a ≠ j → On_Board (j + 16 * b + a) = true →
      Hawk_Attacks i k (j + 16 * b + a) = true ∨ Adjacent i (j + 16 * b + a) = true

instance (i j k : Int) : Decidable (No_Escape i j k) := by
  unfold No_Escape; infer_instance

/-- The white king on `a` stands strictly between `b` and `c` on their
diagonal: `t` diagonal steps from `b` towards `c`, with `0 < t` short of `c`. -/
def Strictly_Between (a b c : Int) : Prop :=
  ∃ t : Int, 0 < t ∧ t < |file c - file b| ∧
    file a = file b + t * Int.sign (file c - file b) ∧
    rank a = rank b + t * Int.sign (rank c - rank b)

/-- The hawk rule in the words of the specification: a knight leap, or a
diagonal line to another square with the white king not strictly between. -/
def Hawk_Rule (a b c : Int) : Prop :=
  (|file c - file b| = 1 ∧ |rank c - rank b| = 2) ∨
    (|file c - file b| = 2 ∧ |rank c - rank b| = 1) ∨
    (c ≠ b ∧ |file c - file b| = |rank c - rank b| ∧ ¬ Strictly_Between a b c)

/-- The special square in the orbit of a board square: fold file and rank to
the queenside and first four ranks, then put the smaller coordinate in the rank. -/
def Orbit_Key (s : Int) : Int :=
  16 * min (min (s % 16) (7 - s % 16)) (min (s / 16) (7 - s / 16)) +
    max (min (s % 16) (7 - s % 16)) (min (s / 16) (7 - s / 16))

/-- A composition of reflections that carries a board square to its orbit key. -/
def Canon_Word (s : Int) : List Int :=
  (if 3 < s % 16 then [sym_y] else []) ++ (if 3 < s / 16 then [sym_x] else []) ++
    (if min (s % 16) (7 - s % 16) < min (s / 16) (7 - s / 16) then [sym_d1] else [])

/-- The squares of the board, as the loops of the program meet them. -/
def board_squares : List Int := squares_loop.filter On_Board

/-- The hawk's attack in file and rank coordinates. -/
def Hawk_Coords (fa ra fb rb fc rc : Int) : Prop :=
  ((fc - fb = 1 ∨ fc - fb = -1) ∧ (rc - rb = 2 ∨ rc - rb = -2)) ∨
    ((fc - fb = 2 ∨ fc - fb = -2) ∧ (rc - rb = 1 ∨ rc - rb = -1)) ∨
    (fc - fb = rc - rb ∧ fc ≠ fb ∧
      ¬ (fa - fb = ra - rb ∧ (fb < fa ∧ fa < fc ∨ fc < fa ∧ fa < fb))) ∨
    (fc - fb = -(rc - rb) ∧ fc ≠ fb ∧
      ¬ (fa - fb = -(ra - rb) ∧ (fb < fa ∧ fa < fc ∨ fc < fa ∧ fa < fb)))

/-- The reflections `Apply_Symmetry` implements. -/
def Reflection (g : Int) : Prop :=
  g = sym_x ∨ g = sym_y ∨ g = sym_d1 ∨ g = sym_d2

/-- Records written to `KHK.0` by the loop body for one triple. -/
def Create_mate_records (i j k : Int) : List Rec :=
  if Black_Is_Mated i j k 0 then [(i, j, k, 0)] else []

/-- Records written to `KHK.pos` by the loop body for one triple. -/
def Create_pos_records (i j k : Int) : List Rec :=
  (if Black_Is_Mated i j k 0 then [] else [(i, j, k, 0)]) ++
    (if Hawk_Attacks i k j == false then [(i, j, k, 1)] else [])

/-- The three nested loops of `Create_KHK_Positions` with their guards,
collecting the records `cell i j k` of every triple that passes. -/
def Enumerate (cell : Int → Int → Int → List Rec) : List Rec :=
  squares_loop.flatMap fun i =>
    if On_Board i && Is_Special_Square i then
      squares_loop.flatMap fun j =>
        if On_Board j && j != i && (Adjacent i j == false) then
          squares_loop.flatMap fun k =>
            if On_Board k && k != i && k != j then cell i j k else []
        else []
    else []

/-- A triple in the words of the specification: pairwise distinct board
squares, the white king on a special square, the kings not adjacent. -/
def Legal_Triple (i j k : Int) : Prop :=
  Board_Square i ∧ Board_Square j ∧ Board_Square k ∧ i ≠ j ∧ i ≠ k ∧ j ≠ k ∧
    Is_Special_Square i = true ∧ Adjacent i j = false

instance (i j k : Int) : Decidable (Legal_Triple i j k) := by
  unfold Legal_Triple; infer_instance

/-- The test that sends a record to the new depth set in `Black_One_Ply_More`. -/
def Black_accepts (m : Int) (khk : Int → List Rec) (rec : Rec) : Bool :=
  (if rec.2.2.2 == 1 then false
    else Black_so_far_so_good m khk rec.1 rec.2.1 rec.2.2.1) &&
    !(Is_Stalemate rec.1 rec.2.1 rec.2.2.1 rec.2.2.2)

/-- Every legal black-king move is answered, in the words of the
specification: each neighbour `d` of `j` that is on the board, not adjacent to
the white king and not attacked by the hawk on `k` occurs with white to move
in some file `KHK.p`, `p` odd, `1 ≤ p ≤ m - 1`. -/
def Escapes_Covered (m : Int) (khk : Int → List Rec) (i j k : Int) : Prop :=
  ∀ b ∈ offsets, ∀ c ∈ offsets,
    j + 16 * b + c ≠ j → On_Board (j + 16 * b + c) = true →
      Adjacent i (j + 16 * b + c) = false → Hawk_Attacks i k (j + 16 * b + c) = false →
        ∃ p : Int, p % 2 = 1 ∧ 1 ≤ p ∧ p ≤ m - 1 ∧ (i, j + 16 * b + c, k, 1) ∈ khk p

/-- The square `j` strictly between `k` and `b` on a common diagonal, in the
words of the claim: `j - k` and `b - k` are both multiples of 17, or both
multiples of 15, and `k < j < b` or `b < j < k`. -/
def Between_On_Diagonal (k j b : Int) : Prop :=
  (((j - k) % 17 = 0 ∧ (b - k) % 17 = 0) ∨ ((j - k) % 15 = 0 ∧ (b - k) % 15 = 0)) ∧
    (k < j ∧ j < b ∨ b < j ∧ j < k)

instance (k j b : Int) : Decidable (Between_On_Diagonal k j b) := by
  unfold Between_On_Diagonal; infer_instance

/-- No record of the files `KHK.1, KHK.3, ..., KHK.(m-1)` has the black king
on the hawk's square. -/
def No_King_On_Hawk (m : Int) (khk : Int → List Rec) : Prop :=
  ∀ p : Int, p % 2 = 1 → 1 ≤ p → p ≤ m - 1 → ∀ r ∈ khk p, r.2.1 ≠ r.2.2.1

/-- The test that sends a record to the new depth set in `White_One_Ply_More`. -/
def White_accepts (old : List Rec) (rec : Rec) : Bool :=
  !(rec.2.2.2 == 0) &&
    (White_hawk_retraction old rec.1 rec.2.1 rec.2.2.1 ||
      White_king_retraction old rec.1 rec.2.1 rec.2.2.1)

/-! ## Natural-number mirrors of the predicates, for counting -/

/-- Mirror of `On_Board` on naturals. -/
def onN (n : Nat) : Bool := Nat.beq (Nat.land n 0x88) 0

/-- Mirror of `Is_Special_Square` on naturals. -/
def specialN (a : Nat) : Bool :=
  Nat.beq a 0 || Nat.beq a 1 || Nat.beq a 2 || Nat.beq a 3 ||
    Nat.beq a 17 || Nat.beq a 18 || Nat.beq a 19 || Nat.beq a 34 || Nat.beq a 35 || Nat.beq a 51

/-- Mirror of `Adjacent` on naturals, subtractions moved to the other side. -/
def adjN (a b : Nat) : Bool :=
  Nat.beq b (a + 1) || Nat.beq (b + 1) a || Nat.beq (b + 17) a || Nat.beq (b + 16) a ||
    Nat.beq (b + 15) a || Nat.beq b (a + 15) || Nat.beq b (a + 16) || Nat.beq b (a + 17)

/-- Mirror of `Hawk_Attacks` on naturals, for `a` and `b` up to 120:
differences are shifted by `8 * 17` and `8 * 15` before the remainder is taken. -/
def hawkN (a b c : Nat) : Bool :=
  (Nat.beq (c + 33) b || Nat.beq (c + 31) b || Nat.beq (c + 18) b || Nat.beq (c + 14) b ||
      Nat.beq c (b + 14) || Nat.beq c (b + 18) || Nat.beq c (b + 31) || Nat.beq c (b + 33)) ||
  (Nat.beq ((c + 136 - b) % 17) 0 && !Nat.beq c b &&
      !(Nat.beq ((c + 136 - a) % 17) 0 && Nat.blt b a && Nat.blt a c) &&
      !(Nat.beq ((c + 136 - a) % 17) 0 && Nat.blt c a && Nat.blt a b)) ||
  (Nat.beq ((c + 120 - b) % 15) 0 && !Nat.beq c b &&
      !(Nat.beq ((c + 120 - a) % 15) 0 && Nat.blt b a && Nat.blt a c) &&
      !(Nat.beq ((c + 120 - a) % 15) 0 && Nat.blt c a && Nat.blt a b))

/-- The square `j + s - 17` fails the scan of `Black_Is_Mated`: it is on the
board and neither attacked by the hawk nor adjacent to the white king. -/
def escapeN (i j k s : Nat) : Bool :=
  Nat.ble 17 (j + s) && onN (j + s - 17) &&
    !(hawkN i k (j + s - 17) || adjN i (j + s - 17))

/-- Mirror of `Black_Is_Mated` with black to move: the nine squares
`j + 16 * b + a` are `j + s - 17` for the nine shifts `s`. -/
def matedN (i j k : Nat) : Bool :=
  !escapeN i j k 0 && !escapeN i j k 16 && !escapeN i j k 32 &&
    !escapeN i j k 1 && !escapeN i j k 17 && !escapeN i j k 33 &&
    !escapeN i j k 2 && !escapeN i j k 18 && !escapeN i j k 34

/-- Sum of `f 0, ..., f (n - 1)`. -/
def sumTo (f : Nat → Nat) : Nat → Nat
  | 0 => 0
  | n + 1 => sumTo f n + f n

/-- Mirror of the `k` loop of `Create_KHK_Positions` under the guard of the
`j` loop, adding up `cnt i j k` over the hawk squares that pass the guard. -/
def rowCellN (cnt : Nat → Nat → Nat → Nat) (i j : Nat) : Nat :=
  cond (onN j && !Nat.beq j i && !adjN i j)
    (sumTo (fun k => cond (onN k && !Nat.beq k i && !Nat.beq k j) (cnt i j k) 0) 0x78) 0

/-- Mirror of the `j` and `k` loops of `Create_KHK_Positions` for one
white-king square. -/
def rowN (cnt : Nat → Nat → Nat → Nat) (i : Nat) : Nat :=
  sumTo (rowCellN cnt i) 0x78

/-- Mirror of the three guarded loops of `Create_KHK_Positions`, adding up
`cnt i j k` over the triples that pass the guards. -/
def countN (cnt : Nat → Nat → Nat → Nat) : Nat :=
  sumTo (fun i => cond (onN i && specialN i) (rowN cnt i) 0) 0x78

/-! ## The hawk test on 32-bit machine integers -/

/-- The value a 32-bit two's-complement `int` holds after an addition or
subtraction whose exact result is `x`: `x` reduced modulo `2^32` into
`-2^31 .. 2^31 - 1`. -/
def wrap32 (x : Int) : Int :=
  (x + 2147483648) % 4294967296 - 2147483648

/-- The range of the source's `int`. -/
def Is_int32 (x : Int) : Prop :=
  -2147483648 ≤ x ∧ x ≤ 2147483647

instance (x : Int) : Decidable (Is_int32 x) := by
  unfold Is_int32
  infer_instance

/-- Source `Hawk_Attacks` on the machine type of its parameters: the same
three tests, every `b ± n`, `c - b` and `c - a` computed in 32-bit
two's-complement arithmetic. -/
def Hawk_Attacks_int32 (a b c : Int) : Bool :=
  if c == wrap32 (b - 33) || c == wrap32 (b - 31) || c == wrap32 (b - 18) ||
      c == wrap32 (b - 14) || c == wrap32 (b + 14) || c == wrap32 (b + 18) ||
      c == wrap32 (b + 31) || c == wrap32 (b + 33) then
    true
  else if Int.tmod (wrap32 (c - b)) 17 == 0 && c != b &&
      !(Int.tmod (wrap32 (c - a)) 17 == 0 && decide (b < a) && decide (a < c)) &&
      !(Int.tmod (wrap32 (c - a)) 17 == 0 && decide (c < a) && decide (a < b)) then
    true
  else if Int.tmod (wrap32 (c - b)) 15 == 0 && c != b &&
      !(Int.tmod (wrap32 (c - a)) 15 == 0 && decide (b < a) && decide (a < c)) &&
      !(Int.tmod (wrap32 (c - a)) 15 == 0 && decide (c < a) && decide (a < b)) then
    true
  else
    false

/-- The squares and offsets on which no operation of `Hawk_Attacks`
overflows: `-2^30 ≤ x < 2^30`. -/
def Small_int (x : Int) : Prop :=
  -1073741824 ≤ x ∧ x < 1073741824

instance (x : Int) : Decidable (Small_int x) := by
  unfold Small_int
  infer_instance

/-! ## Arithmetic of the 0x88 representation -/

theorem tmod_eq_zero_iff (x n : Int) : Int.tmod x n = 0 ↔ x % n = 0 := by
  rw [← Int.dvd_iff_tmod_eq_zero, Int.dvd_iff_emod_eq_zero]

theorem On_Board_iff (a : Int) : On_Board a = true ↔ a % 256 < 128 ∧ a % 16 < 8 := by
  have h : ∀ n : Fin 256,
      (Nat.land n.val 0x88 == 0) = true ↔ (n.val < 128 ∧ n.val % 16 < 8) := by decide!
  have h0 : 0 ≤ a % 256 := Int.emod_nonneg _ (by decide)
  have h1 : a % 256 < 256 := Int.emod_lt_of_pos _ (by decide)
  have h2 : (a % 256).toNat < 256 := by omega
  have h3 := h ⟨(a % 256).toNat, h2⟩
  simp only at h3
  unfold On_Board
  rw [h3]
  omega

theorem On_Board_eq_false_iff (a : Int) :
    On_Board a = false ↔ ¬ (a % 256 < 128 ∧ a % 16 < 8) := by
  rw [← On_Board_iff, Bool.not_eq_true]

theorem land_low_byte (n : Nat) : n &&& 136 = (n % 256) &&& 136 := by
  apply Nat.eq_of_testBit_eq
  intro i
  rw [Nat.testBit_and, Nat.testBit_and, show (256 : Nat) = 2 ^ 8 by norm_num,
    Nat.testBit_mod_two_pow]
  by_cases h : i < 8
  · simp [h]
  · have : Nat.testBit 136 i = false :=
      Nat.testBit_lt_two_pow (lt_of_lt_of_le (by norm_num : 136 < 2 ^ 8)
        (Nat.pow_le_pow_right (by norm_num) (by omega)))
    simp [this]

theorem ldiff_low_byte (n : Nat) : Nat.ldiff 136 n = (255 - n % 256) &&& 136 := by
  apply Nat.eq_of_testBit_eq
  intro i
  have hx : n % 256 < 2 ^ 8 := by norm_num; exact Nat.mod_lt _ (by norm_num)
  have e : 255 - n % 256 = 2 ^ 8 - (n % 256 + 1) := by norm_num; omega
  rw [Nat.testBit_ldiff, Nat.testBit_and, e, Nat.testBit_two_pow_sub_succ hx,
    show (256 : Nat) = 2 ^ 8 by norm_num, Nat.testBit_mod_two_pow]
  by_cases h : i < 8
  · simp [h, Bool.and_comm]
  · have : Nat.testBit 136 i = false :=
      Nat.testBit_lt_two_pow (lt_of_lt_of_le (by norm_num : 136 < 2 ^ 8)
        (Nat.pow_le_pow_right (by norm_num) (by omega)))
    simp [this]

/-- `On_Board` agrees with the two's-complement conjunction `a & 0x88` on all integers. -/
theorem On_Board_eq_land (a : Int) : On_Board a = (Int.land a 0x88 == 0) := by
  unfold On_Board
  cases a with
  | ofNat n =>
    have e1 : Int.land (Int.ofNat n) 0x88 = ((n &&& 136 : Nat) : Int) := rfl
    have e2 : (Int.ofNat n % 256).toNat = n % 256 := by
      show (((n : Int) % 256).toNat) = n % 256
      omega
    rw [e1, e2]
    show ((n % 256) &&& 136 == 0) = _
    rw [← land_low_byte]
    rw [Bool.eq_iff_iff]
    simp
  | negSucc n =>
    have e1 : Int.land (Int.negSucc n) 0x88 = ((Nat.ldiff 136 n : Nat) : Int) := rfl
    have e2 : (Int.negSucc n % 256).toNat = 255 - n % 256 := by
      have : Int.negSucc n = -((n : Int) + 1) := rfl
      rw [this]
      omega
    rw [e1, e2, ldiff_low_byte]
    show ((255 - n % 256) &&& 136 == 0) = _
    rw [Bool.eq_iff_iff]
    simp

theorem Board_Square_iff (s : Int) : Board_Square s ↔ 0 ≤ s ∧ s < 128 ∧ s % 16 < 8 := by
  unfold Board_Square
  rw [On_Board_iff]
  omega

theorem tdiv_of_nonneg (s : Int) (h : 0 ≤ s) : Int.tdiv s 16 = s / 16 :=
  Int.tdiv_eq_ediv h (by decide)

theorem tmod_of_nonneg (s : Int) (h : 0 ≤ s) : Int.tmod s 16 = s % 16 :=
  Int.tmod_eq_emod h (by decide)

theorem Apply_Symmetry_x (s : Int) (h : 0 ≤ s) :
    Apply_Symmetry sym_x s = s % 16 + (7 - s / 16) * 16 := by
  rw [← tdiv_of_nonneg s h, ← tmod_of_nonneg s h]
  rfl

theorem Apply_Symmetry_y (s : Int) (h : 0 ≤ s) :
    Apply_Symmetry sym_y s = s / 16 * 16 + (7 - s % 16) := by
  rw [← tdiv_of_nonneg s h, ← tmod_of_nonneg s h]
  rfl

theorem Apply_Symmetry_d1 (s : Int) (h : 0 ≤ s) :
    Apply_Symmetry sym_d1 s = s / 16 + s % 16 * 16 := by
  rw [← tdiv_of_nonneg s h, ← tmod_of_nonneg s h]
  rfl

theorem Apply_Symmetry_d2 (s : Int) (h : 0 ≤ s) :
    Apply_Symmetry sym_d2 s = (7 - s / 16) + (7 - s % 16) * 16 := by
  rw [← tdiv_of_nonneg s h, ← tmod_of_nonneg s h]
  rfl

theorem mem_squares_loop (s : Int) : s ∈ squares_loop ↔ 0 ≤ s ∧ s < 0x78 := by
  unfold squares_loop
  simp only [List.mem_map, List.mem_range]
  constructor
  · rintro ⟨n, hn, rfl⟩
    omega
  · rintro ⟨h0, h1⟩
    exact ⟨s.toNat, by omega, by omega⟩

theorem mem_board_squares (s : Int) : s ∈ board_squares ↔ Board_Square s := by
  unfold board_squares Board_Square
  rw [List.mem_filter, mem_squares_loop]
  constructor
  · rintro ⟨⟨h0, h1⟩, h2⟩
    exact ⟨h0, by omega, h2⟩
  · rintro ⟨h0, h1, h2⟩
    exact ⟨⟨h0, by omega⟩, h2⟩

/-! ## Terminal positions: mate and stalemate -/

theorem mem_offsets (a : Int) : a ∈ offsets ↔ a = -1 ∨ a = 0 ∨ a = 1 := by
  simp [offsets]

/-- The scan of `Black_Is_Mated` as a statement about the nine squares of the block. -/
theorem Black_Is_Mated_iff (i j k : Int) :
    Black_Is_Mated i j k 0 = true ↔
      ∀ a ∈ offsets, ∀ b ∈ offsets, On_Board (j + b * 16 + a) = true →
        Hawk_Attacks i k (j + b * 16 + a) = true ∨ Adjacent i (j + b * 16 + a) = true := by
  simp only [Black_Is_Mated, bne_self_eq_false, Bool.false_eq_true, if_false, List.all_eq_true,
    Bool.not_eq_true', Bool.and_eq_false_imp, Bool.not_eq_false', Bool.or_eq_true]

theorem Black_Is_Mated_white_on_move (i j k w : Int) (h : w ≠ 0) :
    Black_Is_Mated i j k w = false := by
  simp [Black_Is_Mated, h]

/-- On a board square `j`, a mate has the black king attacked by the hawk or
next to the white king: the scan visits `j` itself. -/
theorem Black_Is_Mated_own_square (i j k : Int) (hj : On_Board j = true)
    (h : Black_Is_Mated i j k 0 = true) :
    Hawk_Attacks i k j = true ∨ Adjacent i j = true := by
  have h0 := (Black_Is_Mated_iff i j k).1 h 0 (by decide) 0 (by decide)
  simp only [zero_mul, add_zero] at h0
  exact h0 hj

theorem Is_Stalemate_not_attacked (i j k w : Int) (h : Is_Stalemate i j k w = true) :
    Hawk_Attacks i k j = false := by
  unfold Is_Stalemate at h
  split at h
  · exact absurd h (by decide)
  · split at h
    · split at h
      · exact absurd h (by decide)
      · simpa using ‹¬ Hawk_Attacks i k j = true›
    · exact absurd h (by decide)

/-- C6 (as stated, refuted): with the kings next to each other, white king on
17, black king on 0 and hawk on 3, both `Black_Is_Mated` and `Is_Stalemate`
hold. -/
theorem mate_and_stalemate_adjacent_kings :
    Board_Square 17 ∧ Board_Square 0 ∧ Board_Square 3 ∧
      (17 : Int) ≠ 0 ∧ (17 : Int) ≠ 3 ∧ (0 : Int) ≠ 3 ∧
      Black_Is_Mated 17 0 3 0 = true ∧ Is_Stalemate 17 0 3 0 = true := by
  decide

/-- C6 (amended): for board squares `i`, `j`, `k`, pairwise distinct, with the
kings not adjacent, `Black_Is_Mated` and `Is_Stalemate` are never both true,
whoever is to move. -/
theorem mate_stalemate_disjoint (i j k w : Int)
    (_hi : Board_Square i) (hj : Board_Square j) (_hk : Board_Square k)
    (_hij : i ≠ j) (_hik : i ≠ k) (_hjk : j ≠ k) (hadj : Adjacent i j = false) :
    ¬ (Black_Is_Mated i j k w = true ∧ Is_Stalemate i j k w = true) := by
  rintro ⟨hm, hs⟩
  by_cases hw : w = 0
  · subst hw
    have hna := Is_Stalemate_not_attacked i j k 0 hs
    rcases Black_Is_Mated_own_square i j k hj.2.2 hm with h | h
    · rw [hna] at h
      exact absurd h (by decide)
    · rw [hadj] at h
      exact absurd h (by decide)
  · rw [Black_Is_Mated_white_on_move i j k w hw] at hm
    exact absurd hm (by decide)

theorem mate_stalemate_disjoint_witness :
    (Board_Square 18 ∧ Board_Square 0 ∧ Board_Square 2 ∧ Adjacent 18 0 = false) ∧
      ¬ (Black_Is_Mated 18 0 2 0 = true ∧ Is_Stalemate 18 0 2 0 = true) :=
  ⟨by decide,
    mate_stalemate_disjoint 18 0 2 0 (by decide) (by decide) (by decide)
      (by decide) (by decide) (by decide) (by decide)⟩

/-- C7 (as stated, refuted): white king 18, black king 0, hawk 2, black to
move: every neighbour of the black king is covered, its own square is not
attacked, and `Black_Is_Mated` is false. -/
theorem no_escape_without_mate :
    Board_Square 18 ∧ Board_Square 0 ∧ Board_Square 2 ∧
      (18 : Int) ≠ 0 ∧ (18 : Int) ≠ 2 ∧ (0 : Int) ≠ 2 ∧
      No_Escape 18 0 2 ∧ Black_Is_Mated 18 0 2 0 = false := by
  decide

/-- C7 (amended): for pairwise distinct board squares and black to move,
`Black_Is_Mated` holds iff every on-board neighbour of `j` is attacked by the
hawk or adjacent to the white king and, in addition, `j` itself is attacked
by the hawk or adjacent to the white king. -/
theorem Black_Is_Mated_iff_no_escape_and_own_square (i j k : Int)
    (_hi : Board_Square i) (hj : Board_Square j) (_hk : Board_Square k)
    (_hij : i ≠ j) (_hik : i ≠ k) (_hjk : j ≠ k) :
    Black_Is_Mated i j k 0 = true ↔
      No_Escape i j k ∧ (Hawk_Attacks i k j = true ∨ Adjacent i j = true) := by
  constructor
  · intro h
    refine ⟨?_, Black_Is_Mated_own_square i j k hj.2.2 h⟩
    intro a ha b hb _ hob
    have h1 := (Black_Is_Mated_iff i j k).1 h a ha b hb
    rw [show j + b * 16 + a = j + 16 * b + a by ring] at h1
    exact h1 hob
  · rintro ⟨hne, hown⟩
    rw [Black_Is_Mated_iff]
    intro a ha b hb hob
    by_cases hc : j + 16 * b + a = j
    · rw [show j + b * 16 + a = j + 16 * b + a by ring, hc]
      exact hown
    · have h1 := hne a ha b hb hc
      rw [show j + b * 16 + a = j + 16 * b + a by ring] at hob ⊢
      exact h1 hob

theorem Black_Is_Mated_iff_no_escape_and_own_square_witness :
    (Board_Square 0 ∧ Board_Square 2 ∧ Board_Square 17) ∧
      (Black_Is_Mated 0 2 17 0 = true ↔
        No_Escape 0 2 17 ∧ (Hawk_Attacks 0 17 2 = true ∨ Adjacent 0 2 = true)) :=
  ⟨by decide,
    Black_Is_Mated_iff_no_escape_and_own_square 0 2 17 (by decide) (by decide) (by decide)
      (by decide) (by decide) (by decide)⟩

/-! ## The symmetries -/

/-- C10 (the code at the failing input): `Apply_Symmetry` has no branch for
`sym_id`; on the board square 1 it returns 0 and not 1. -/
theorem Apply_Symmetry_sym_id_one :
    Board_Square 1 ∧ Apply_Symmetry sym_id 1 = 0 ∧ Apply_Symmetry sym_id 1 ≠ 1 := by
  decide

theorem Sym_Word_Canon_Word (s : Int) : Sym_Word (Canon_Word s) := by
  intro g hg
  unfold Canon_Word at hg
  simp only [List.mem_append] at hg
  rcases hg with (hg | hg) | hg
  · split at hg <;> simp_all
  · split at hg <;> simp_all
  · split at hg <;> simp_all

theorem Canon_Word_special :
    ∀ s ∈ board_squares, Is_Special_Square (Apply_Word (Canon_Word s) s) = true := by
  decide!

/-- Each implemented reflection keeps a board square on the board and in its orbit class. -/
theorem Apply_Symmetry_Orbit_Key (g s : Int) (hs : Board_Square s)
    (hg : g = sym_x ∨ g = sym_y ∨ g = sym_d1 ∨ g = sym_d2) :
    Board_Square (Apply_Symmetry g s) ∧ Orbit_Key (Apply_Symmetry g s) = Orbit_Key s := by
  rw [Board_Square_iff] at hs ⊢
  obtain ⟨h0, h1, h2⟩ := hs
  unfold Orbit_Key
  rcases hg with rfl | rfl | rfl | rfl
  · rw [Apply_Symmetry_x s h0]
    omega
  · rw [Apply_Symmetry_y s h0]
    omega
  · rw [Apply_Symmetry_d1 s h0]
    have hr0 : 0 ≤ s / 16 := by omega
    have hr7 : s / 16 ≤ 7 := by omega
    have hf0 : 0 ≤ s % 16 := by omega
    have e1 : (s / 16 + s % 16 * 16) / 16 = s % 16 := by omega
    have e2 : (s / 16 + s % 16 * 16) % 16 = s / 16 := by omega
    rw [e1, e2]
    omega
  · rw [Apply_Symmetry_d2 s h0]
    have hr0 : 0 ≤ s / 16 := by omega
    have hr7 : s / 16 ≤ 7 := by omega
    have hf0 : 0 ≤ s % 16 := by omega
    have e1 : (7 - s / 16 + (7 - s % 16) * 16) / 16 = 7 - s % 16 := by omega
    have e2 : (7 - s / 16 + (7 - s % 16) * 16) % 16 = 7 - s / 16 := by omega
    rw [e1, e2]
    omega

theorem Apply_Word_Orbit_Key (w : List Int) (hw : Sym_Word w) (s : Int) (hs : Board_Square s) :
    Board_Square (Apply_Word w s) ∧ Orbit_Key (Apply_Word w s) = Orbit_Key s := by
  induction w generalizing s with
  | nil => exact ⟨hs, rfl⟩
  | cons g w ih =>
    have hg := hw g (List.mem_cons_self g w)
    have hstep := Apply_Symmetry_Orbit_Key g s hs hg
    have htail := ih (fun x hx => hw x (List.mem_cons_of_mem g hx)) (Apply_Symmetry g s) hstep.1
    exact ⟨htail.1, htail.2.trans hstep.2⟩

theorem Is_Special_Square_iff (s : Int) :
    Is_Special_Square s = true ↔
      s = 0 ∨ s = 1 ∨ s = 2 ∨ s = 3 ∨ s = 17 ∨ s = 18 ∨ s = 19 ∨ s = 34 ∨ s = 35 ∨ s = 51 := by
  simp [Is_Special_Square, or_assoc]

theorem Orbit_Key_of_special (s : Int) (h : Is_Special_Square s = true) : Orbit_Key s = s := by
  rw [Is_Special_Square_iff] at h
  rcases h with rfl | rfl | rfl | rfl | rfl | rfl | rfl | rfl | rfl | rfl <;> decide

/-- C9: every board square is carried to a special square by a composition
of the reflections `sym_x`, `sym_y`, `sym_d1`, `sym_d2`; no such composition
carries a special square to another special square; so the special square
reached from a board square is the same for every composition. -/
theorem special_squares_fundamental_domain (s : Int) (hs : Board_Square s) :
    (∃ w, Sym_Word w ∧ Is_Special_Square (Apply_Word w s) = true) ∧
      (∀ w, Sym_Word w → Is_Special_Square s = true →
        Is_Special_Square (Apply_Word w s) = true → Apply_Word w s = s) ∧
      (∀ w w', Sym_Word w → Sym_Word w' → Is_Special_Square (Apply_Word w s) = true →
        Is_Special_Square (Apply_Word w' s) = true → Apply_Word w s = Apply_Word w' s) := by
  refine ⟨?_, ?_, ?_⟩
  · exact ⟨Canon_Word s, Sym_Word_Canon_Word s,
      Canon_Word_special s ((mem_board_squares s).2 hs)⟩
  · intro w hw h1 h2
    have hk := (Apply_Word_Orbit_Key w hw s hs).2
    rw [Orbit_Key_of_special _ h2, Orbit_Key_of_special _ h1] at hk
    exact hk
  · intro w w' hw hw' h1 h2
    have hk := (Apply_Word_Orbit_Key w hw s hs).2
    have hk' := (Apply_Word_Orbit_Key w' hw' s hs).2
    rw [Orbit_Key_of_special _ h1] at hk
    rw [Orbit_Key_of_special _ h2] at hk'
    rw [hk, hk']

theorem special_squares_fundamental_domain_witness :
    Board_Square 18 ∧
      ((∃ w, Sym_Word w ∧ Is_Special_Square (Apply_Word w 18) = true) ∧
        (∀ w, Sym_Word w → Is_Special_Square 18 = true →
          Is_Special_Square (Apply_Word w 18) = true → Apply_Word w 18 = 18) ∧
        (∀ w w', Sym_Word w → Sym_Word w' → Is_Special_Square (Apply_Word w 18) = true →
          Is_Special_Square (Apply_Word w' 18) = true →
            Apply_Word w 18 = Apply_Word w' 18)) :=
  ⟨by decide, special_squares_fundamental_domain 18 (by decide)⟩

/-! ## The symmetry chosen for a king retraction -/

/-- C3 (the code at the failing input): from the special square 51 the king
step `b = 1`, `c = -1` reaches the board square 66, which is not special; the
branch `d == 66` applies `sym_y` first and `sym_d1` second and looks up the
white king on 84, which is not a special square. -/
theorem King_Retract_Key_66_not_special :
    Is_Special_Square 51 = true ∧ (51 + 1 * 16 + (-1) : Int) = 66 ∧ On_Board 66 = true ∧
      Is_Special_Square 66 = false ∧
      (∀ j k, King_Retract_Key 66 j k =
        some (84, Apply_Symmetry sym_d1 (Apply_Symmetry sym_y j),
          Apply_Symmetry sym_d1 (Apply_Symmetry sym_y k))) ∧
      Is_Special_Square 84 = false := by
  refine ⟨by decide, by decide, by decide, by decide, ?_, by decide⟩
  intro j k
  rfl

/-- For every other king destination the selected symmetry does reach a special square. -/
theorem King_Retract_Key_special_of_ne_66 (i b c j k : Int) (hi : Is_Special_Square i = true)
    (hb : b ∈ offsets) (hc : c ∈ offsets) (hob : On_Board (i + b * 16 + c) = true)
    (hne : i + b * 16 + c ≠ 66) :
    ∃ p q r, King_Retract_Key (i + b * 16 + c) j k = some (p, q, r) ∧
      Is_Special_Square p = true := by
  rw [Is_Special_Square_iff] at hi
  rw [mem_offsets] at hb hc
  rcases hi with rfl | rfl | rfl | rfl | rfl | rfl | rfl | rfl | rfl | rfl <;>
    rcases hb with rfl | rfl | rfl <;> rcases hc with rfl | rfl | rfl <;>
    first
      | exact absurd hob (by decide)
      | exact absurd rfl hne
      | exact ⟨_, _, _, rfl, by decide⟩

/-! ## The hawk -/

theorem diag_form (A B C P Q R S : Prop) :
    (((A ∧ ¬B) ∧ (C ∧ P → ¬Q)) ∧ (C ∧ R → ¬S)) ↔
      (A ∧ ¬B ∧ ¬(C ∧ P ∧ Q) ∧ ¬(C ∧ R ∧ S)) := by
  tauto

theorem ite_chain (K D E : Prop) [Decidable K] [Decidable D] [Decidable E] :
    (if K then true else if D then true else if E then true else false) = true ↔
      K ∨ D ∨ E := by
  by_cases hK : K <;> by_cases hD : D <;> by_cases hE : E <;> simp [hK, hD, hE]

theorem Hawk_Attacks_iff (a b c : Int) :
    Hawk_Attacks a b c = true ↔
      (c = b - 33 ∨ c = b - 31 ∨ c = b - 18 ∨ c = b - 14 ∨
        c = b + 14 ∨ c = b + 18 ∨ c = b + 31 ∨ c = b + 33) ∨
      ((c - b) % 17 = 0 ∧ c ≠ b ∧ ¬ ((c - a) % 17 = 0 ∧ b < a ∧ a < c) ∧
        ¬ ((c - a) % 17 = 0 ∧ c < a ∧ a < b)) ∨
      ((c - b) % 15 = 0 ∧ c ≠ b ∧ ¬ ((c - a) % 15 = 0 ∧ b < a ∧ a < c) ∧
        ¬ ((c - a) % 15 = 0 ∧ c < a ∧ a < b)) := by
  unfold Hawk_Attacks
  simp only [Bool.or_eq_true, beq_iff_eq, Bool.and_eq_true, bne_iff_ne, ne_eq,
    Bool.not_eq_true', Bool.and_eq_false_imp, decide_eq_true_eq, decide_eq_false_iff_not,
    tmod_eq_zero_iff, diag_form]
  rw [ite_chain]
  simp only [or_assoc]

theorem sign_abs_cases (x : Int) :
    (Int.sign x = 1 ∧ |x| = x ∧ 0 < x) ∨ (Int.sign x = 0 ∧ |x| = 0 ∧ x = 0) ∨
      (Int.sign x = -1 ∧ |x| = -x ∧ x < 0) := by
  rcases lt_trichotomy x 0 with hx | hx | hx
  · exact Or.inr (Or.inr ⟨Int.sign_eq_neg_one_of_neg hx, abs_of_neg hx, hx⟩)
  · subst hx
    exact Or.inr (Or.inl ⟨rfl, rfl, rfl⟩)
  · exact Or.inl ⟨Int.sign_eq_one_of_pos hx, abs_of_pos hx, hx⟩

theorem Strictly_Between_diag1 (a b c : Int) (h : file c - file b = rank c - rank b)
    (_h0 : file c ≠ file b) :
    Strictly_Between a b c ↔
      (file a - file b = rank a - rank b ∧
        (file b < file a ∧ file a < file c ∨ file c < file a ∧ file a < file b)) := by
  unfold Strictly_Between
  rw [← h]
  rcases sign_abs_cases (file c - file b) with ⟨e1, a1, hf⟩ | ⟨e1, a1, hf⟩ | ⟨e1, a1, hf⟩ <;>
    rw [e1, a1] <;> refine ⟨fun ⟨t, h1, h2, h3, h4⟩ => ?_, fun h5 => ?_⟩
  all_goals
    first
      | omega
      | exact ⟨file a - file b, by omega, by omega, by omega, by omega⟩
      | exact ⟨file b - file a, by omega, by omega, by omega, by omega⟩

theorem Strictly_Between_diag2 (a b c : Int) (h : file c - file b = -(rank c - rank b))
    (_h0 : file c ≠ file b) :
    Strictly_Between a b c ↔
      (file a - file b = -(rank a - rank b) ∧
        (file b < file a ∧ file a < file c ∨ file c < file a ∧ file a < file b)) := by
  unfold Strictly_Between
  have hr : rank c - rank b = -(file c - file b) := by omega
  rw [hr, Int.sign_neg]
  rcases sign_abs_cases (file c - file b) with ⟨e1, a1, hf⟩ | ⟨e1, a1, hf⟩ | ⟨e1, a1, hf⟩ <;>
    rw [e1, a1] <;> refine ⟨fun ⟨t, h1, h2, h3, h4⟩ => ?_, fun h5 => ?_⟩
  all_goals
    first
      | omega
      | exact ⟨file a - file b, by omega, by omega, by omega, by omega⟩
      | exact ⟨file b - file a, by omega, by omega, by omega, by omega⟩

theorem Hawk_Attacks_self (a b : Int) : Hawk_Attacks a b b = false := by
  rw [← Bool.not_eq_true, Hawk_Attacks_iff]
  omega

theorem Board_Square_coords (s : Int) (h : Board_Square s) :
    0 ≤ file s ∧ file s ≤ 7 ∧ 0 ≤ rank s ∧ rank s ≤ 7 ∧ s = 16 * rank s + file s := by
  rw [Board_Square_iff] at h
  unfold file rank
  omega

theorem diag17_coords (fb rb fc rc : Int) (h1 : 0 ≤ fb) (h2 : fb ≤ 7) (h3 : 0 ≤ fc) (h4 : fc ≤ 7)
    (h5 : 0 ≤ rb) (h6 : rb ≤ 7) (h7 : 0 ≤ rc) (h8 : rc ≤ 7) :
    (16 * rc + fc - (16 * rb + fb)) % 17 = 0 ↔ fc - fb = rc - rb := by
  omega

theorem diag15_coords (fb rb fc rc : Int) (h1 : 0 ≤ fb) (h2 : fb ≤ 7) (h3 : 0 ≤ fc) (h4 : fc ≤ 7)
    (h5 : 0 ≤ rb) (h6 : rb ≤ 7) (h7 : 0 ≤ rc) (h8 : rc ≤ 7) :
    (16 * rc + fc - (16 * rb + fb)) % 15 = 0 ↔ fc - fb = -(rc - rb) := by
  omega

set_option maxHeartbeats 4000000 in
theorem Hawk_Attacks_coords (fa ra fb rb fc rc : Int)
    (a1 : 0 ≤ fa) (a2 : fa ≤ 7) (a3 : 0 ≤ ra) (a4 : ra ≤ 7)
    (b1 : 0 ≤ fb) (b2 : fb ≤ 7) (b3 : 0 ≤ rb) (b4 : rb ≤ 7)
    (c1 : 0 ≤ fc) (c2 : fc ≤ 7) (c3 : 0 ≤ rc) (c4 : rc ≤ 7) :
    Hawk_Attacks (16 * ra + fa) (16 * rb + fb) (16 * rc + fc) = true ↔
      Hawk_Coords fa ra fb rb fc rc := by
  rw [Hawk_Attacks_iff, diag17_coords fb rb fc rc b1 b2 c1 c2 b3 b4 c3 c4,
    diag17_coords fa ra fc rc a1 a2 c1 c2 a3 a4 c3 c4,
    diag15_coords fb rb fc rc b1 b2 c1 c2 b3 b4 c3 c4,
    diag15_coords fa ra fc rc a1 a2 c1 c2 a3 a4 c3 c4]
  unfold Hawk_Coords
  omega

theorem Hawk_Attacks_iff_coords (a b c : Int)
    (ha : Board_Square a) (hb : Board_Square b) (hc : Board_Square c) :
    Hawk_Attacks a b c = true ↔
      Hawk_Coords (file a) (rank a) (file b) (rank b) (file c) (rank c) := by
  obtain ⟨a1, a2, a3, a4, ea⟩ := Board_Square_coords a ha
  obtain ⟨b1, b2, b3, b4, eb⟩ := Board_Square_coords b hb
  obtain ⟨c1, c2, c3, c4, ec⟩ := Board_Square_coords c hc
  have h := Hawk_Attacks_coords (file a) (rank a) (file b) (rank b) (file c) (rank c)
    a1 a2 a3 a4 b1 b2 b3 b4 c1 c2 c3 c4
  rw [← ea, ← eb, ← ec] at h
  exact h


/-- C2: for board squares `a`, `b`, `c`, `Hawk_Attacks a b c` holds iff `c` is
a knight leap from `b`, or `c` differs from `b`, lies on a diagonal through
`b`, and `a` is not strictly between them on it; and `Hawk_Attacks a b b` is
false. -/
theorem Hawk_Attacks_iff_Hawk_Rule (a b c : Int)
    (ha : Board_Square a) (hb : Board_Square b) (hc : Board_Square c) :
    (Hawk_Attacks a b c = true ↔ Hawk_Rule a b c) ∧ Hawk_Attacks a b b = false := by
  refine ⟨?_, Hawk_Attacks_self a b⟩
  rw [Hawk_Attacks_iff_coords a b c ha hb hc]
  obtain ⟨-, -, -, -, eb⟩ := Board_Square_coords b hb
  obtain ⟨-, -, -, -, ec⟩ := Board_Square_coords c hc
  have hcb : c ≠ b ↔ ¬ (file c = file b ∧ rank c = rank b) := by
    constructor
    · rintro h ⟨h1, h2⟩
      apply h
      rw [eb, ec, h1, h2]
    · rintro h rfl
      exact h ⟨rfl, rfl⟩
  have k1 : ∀ x : Int, |x| = 1 ↔ x = 1 ∨ x = -1 := fun x => abs_eq (by norm_num)
  have k2 : ∀ x : Int, |x| = 2 ↔ x = 2 ∨ x = -2 := fun x => abs_eq (by norm_num)
  unfold Hawk_Rule Hawk_Coords
  rw [k1, k2, k1, k2, hcb]
  refine or_congr Iff.rfl (or_congr Iff.rfl ?_)
  constructor
  · rintro (⟨h1, h2, h3⟩ | ⟨h1, h2, h3⟩)
    · refine ⟨fun h => h2 h.1, by rw [h1], ?_⟩
      rw [Strictly_Between_diag1 a b c h1 h2]
      exact h3
    · refine ⟨fun h => h2 h.1, by rw [h1, abs_neg], ?_⟩
      rw [Strictly_Between_diag2 a b c h1 h2]
      exact h3
  · rintro ⟨h1, h2, h3⟩
    have h0 : file c ≠ file b := by
      intro h
      apply h1
      refine ⟨h, ?_⟩
      rw [h, sub_self, abs_zero] at h2
      have := abs_eq_zero.1 h2.symm
      omega
    rcases abs_eq_abs.1 h2 with h4 | h4
    · left
      refine ⟨h4, h0, ?_⟩
      rw [← Strictly_Between_diag1 a b c h4 h0]
      exact h3
    · right
      refine ⟨h4, h0, ?_⟩
      rw [← Strictly_Between_diag2 a b c h4 h0]
      exact h3

theorem Hawk_Attacks_iff_Hawk_Rule_witness :
    (Board_Square 17 ∧ Board_Square 0 ∧ Board_Square 51) ∧
      ((Hawk_Attacks 17 0 51 = true ↔ Hawk_Rule 17 0 51) ∧ Hawk_Attacks 17 0 0 = false) :=
  ⟨by decide, Hawk_Attacks_iff_Hawk_Rule 17 0 51 (by decide) (by decide) (by decide)⟩

/-! ## Reflections preserve mate -/

/-- File and rank of the image of a board square under a reflection. -/
theorem Apply_Symmetry_coords (g s : Int) (hg : Reflection g) (hs : Board_Square s) :
    Board_Square (Apply_Symmetry g s) ∧
      ((g = sym_x ∧ file (Apply_Symmetry g s) = file s ∧
          rank (Apply_Symmetry g s) = 7 - rank s) ∨
        (g = sym_y ∧ file (Apply_Symmetry g s) = 7 - file s ∧
          rank (Apply_Symmetry g s) = rank s) ∨
        (g = sym_d1 ∧ file (Apply_Symmetry g s) = rank s ∧
          rank (Apply_Symmetry g s) = file s) ∨
        (g = sym_d2 ∧ file (Apply_Symmetry g s) = 7 - rank s ∧
          rank (Apply_Symmetry g s) = 7 - file s)) := by
  rw [Board_Square_iff] at hs ⊢
  obtain ⟨h0, h1, h2⟩ := hs
  have hr0 : 0 ≤ s / 16 := by omega
  have hr7 : s / 16 ≤ 7 := by omega
  have hf0 : 0 ≤ s % 16 := by omega
  unfold file rank
  rcases hg with rfl | rfl | rfl | rfl
  · rw [Apply_Symmetry_x s h0]
    refine ⟨by omega, Or.inl ⟨rfl, by omega, by omega⟩⟩
  · rw [Apply_Symmetry_y s h0]
    refine ⟨by omega, Or.inr (Or.inl ⟨rfl, by omega, by omega⟩)⟩
  · rw [Apply_Symmetry_d1 s h0]
    have e1 : (s / 16 + s % 16 * 16) / 16 = s % 16 := by omega
    have e2 : (s / 16 + s % 16 * 16) % 16 = s / 16 := by omega
    refine ⟨by omega, Or.inr (Or.inr (Or.inl ⟨rfl, e2, e1⟩))⟩
  · rw [Apply_Symmetry_d2 s h0]
    have e1 : (7 - s / 16 + (7 - s % 16) * 16) / 16 = 7 - s % 16 := by omega
    have e2 : (7 - s / 16 + (7 - s % 16) * 16) % 16 = 7 - s / 16 := by omega
    refine ⟨by omega, Or.inr (Or.inr (Or.inr ⟨rfl, e2, e1⟩))⟩

theorem Hawk_Coords_x (fa ra fb rb fc rc : Int) :
    Hawk_Coords fa ra fb rb fc rc → Hawk_Coords fa (7 - ra) fb (7 - rb) fc (7 - rc) := by
  unfold Hawk_Coords
  rintro (h | h | h | h)
  · left; omega
  · right; left; omega
  · right; right; right; omega
  · right; right; left; omega

theorem Hawk_Coords_y (fa ra fb rb fc rc : Int) :
    Hawk_Coords fa ra fb rb fc rc → Hawk_Coords (7 - fa) ra (7 - fb) rb (7 - fc) rc := by
  unfold Hawk_Coords
  rintro (h | h | h | h)
  · left; omega
  · right; left; omega
  · right; right; right; omega
  · right; right; left; omega

theorem Hawk_Coords_d1 (fa ra fb rb fc rc : Int) :
    Hawk_Coords fa ra fb rb fc rc → Hawk_Coords ra fa rb fb rc fc := by
  unfold Hawk_Coords
  rintro (h | h | h | h)
  · right; left; omega
  · left; omega
  · right; right; left; omega
  · right; right; right; omega

theorem Hawk_Coords_d2 (fa ra fb rb fc rc : Int) :
    Hawk_Coords fa ra fb rb fc rc →
      Hawk_Coords (7 - ra) (7 - fa) (7 - rb) (7 - fb) (7 - rc) (7 - fc) := by
  unfold Hawk_Coords
  rintro (h | h | h | h)
  · right; left; omega
  · left; omega
  · right; right; left; omega
  · right; right; right; omega


theorem sym_ne : sym_x ≠ sym_y ∧ sym_x ≠ sym_d1 ∧ sym_x ≠ sym_d2 ∧ sym_y ≠ sym_d1 ∧
    sym_y ≠ sym_d2 ∧ sym_d1 ≠ sym_d2 := by decide

/-- A board square is determined by its file and rank. -/
theorem Board_Square_ext (s t : Int) (hs : Board_Square s) (ht : Board_Square t)
    (hf : file s = file t) (hr : rank s = rank t) : s = t := by
  obtain ⟨-, -, -, -, es⟩ := Board_Square_coords s hs
  obtain ⟨-, -, -, -, et⟩ := Board_Square_coords t ht
  rw [es, et, hf, hr]

/-- Each implemented reflection is an involution of the board. -/
theorem Apply_Symmetry_invol (g s : Int) (hg : Reflection g) (hs : Board_Square s) :
    Apply_Symmetry g (Apply_Symmetry g s) = s := by
  obtain ⟨hb, hc⟩ := Apply_Symmetry_coords g s hg hs
  obtain ⟨hb2, hc2⟩ := Apply_Symmetry_coords g (Apply_Symmetry g s) hg hb
  obtain ⟨n1, n2, n3, n4, n5, n6⟩ := sym_ne
  apply Board_Square_ext _ _ hb2 hs
  · rcases hc with ⟨rfl, h1, h2⟩ | ⟨rfl, h1, h2⟩ | ⟨rfl, h1, h2⟩ | ⟨rfl, h1, h2⟩ <;>
      rcases hc2 with ⟨e, h3, h4⟩ | ⟨e, h3, h4⟩ | ⟨e, h3, h4⟩ | ⟨e, h3, h4⟩ <;>
      omega
  · rcases hc with ⟨rfl, h1, h2⟩ | ⟨rfl, h1, h2⟩ | ⟨rfl, h1, h2⟩ | ⟨rfl, h1, h2⟩ <;>
      rcases hc2 with ⟨e, h3, h4⟩ | ⟨e, h3, h4⟩ | ⟨e, h3, h4⟩ | ⟨e, h3, h4⟩ <;>
      omega

/-- The hawk's attack is preserved by each implemented reflection. -/
theorem Hawk_Attacks_reflect (g a b c : Int) (hg : Reflection g)
    (ha : Board_Square a) (hb : Board_Square b) (hc : Board_Square c)
    (h : Hawk_Attacks a b c = true) :
    Hawk_Attacks (Apply_Symmetry g a) (Apply_Symmetry g b) (Apply_Symmetry g c) = true := by
  obtain ⟨ha2, ca⟩ := Apply_Symmetry_coords g a hg ha
  obtain ⟨hb2, cb⟩ := Apply_Symmetry_coords g b hg hb
  obtain ⟨hc2, cc⟩ := Apply_Symmetry_coords g c hg hc
  rw [Hawk_Attacks_iff_coords _ _ _ ha hb hc] at h
  rw [Hawk_Attacks_iff_coords _ _ _ ha2 hb2 hc2]
  rcases ca with ⟨rfl, a1, a2⟩ | ⟨rfl, a1, a2⟩ | ⟨rfl, a1, a2⟩ | ⟨rfl, a1, a2⟩ <;>
    rcases cb with ⟨e, b1, b2⟩ | ⟨e, b1, b2⟩ | ⟨e, b1, b2⟩ | ⟨e, b1, b2⟩ <;>
    first
      | exact absurd e (by decide)
      | skip
  all_goals
    rcases cc with ⟨e, c1, c2⟩ | ⟨e, c1, c2⟩ | ⟨e, c1, c2⟩ | ⟨e, c1, c2⟩ <;>
    first
      | exact absurd e (by decide)
      | skip
  · rw [a1, a2, b1, b2, c1, c2]
    exact Hawk_Coords_x _ _ _ _ _ _ h
  · rw [a1, a2, b1, b2, c1, c2]
    exact Hawk_Coords_y _ _ _ _ _ _ h
  · rw [a1, a2, b1, b2, c1, c2]
    exact Hawk_Coords_d1 _ _ _ _ _ _ h
  · rw [a1, a2, b1, b2, c1, c2]
    exact Hawk_Coords_d2 _ _ _ _ _ _ h


/-- On board squares `Adjacent` is one king step in file and rank. -/
theorem Adjacent_iff_coords (a b : Int) (ha : Board_Square a) (hb : Board_Square b) :
    Adjacent a b = true ↔
      (-1 ≤ file b - file a ∧ file b - file a ≤ 1 ∧ -1 ≤ rank b - rank a ∧
        rank b - rank a ≤ 1 ∧ (file b ≠ file a ∨ rank b ≠ rank a)) := by
  obtain ⟨a1, a2, a3, a4, ea⟩ := Board_Square_coords a ha
  obtain ⟨b1, b2, b3, b4, eb⟩ := Board_Square_coords b hb
  unfold Adjacent
  simp only [Bool.or_eq_true, beq_iff_eq]
  omega

theorem Adjacent_reflect (g a b : Int) (hg : Reflection g)
    (ha : Board_Square a) (hb : Board_Square b) (h : Adjacent a b = true) :
    Adjacent (Apply_Symmetry g a) (Apply_Symmetry g b) = true := by
  obtain ⟨ha2, ca⟩ := Apply_Symmetry_coords g a hg ha
  obtain ⟨hb2, cb⟩ := Apply_Symmetry_coords g b hg hb
  rw [Adjacent_iff_coords _ _ ha hb] at h
  rw [Adjacent_iff_coords _ _ ha2 hb2]
  rcases ca with ⟨rfl, a1, a2⟩ | ⟨rfl, a1, a2⟩ | ⟨rfl, a1, a2⟩ | ⟨rfl, a1, a2⟩ <;>
    rcases cb with ⟨e, b1, b2⟩ | ⟨e, b1, b2⟩ | ⟨e, b1, b2⟩ | ⟨e, b1, b2⟩ <;>
    first
      | exact absurd e (by decide)
      | omega

/-- The scan of `Black_Is_Mated` around a board square `j`, as a statement about
the board squares within one step of `j` in file and rank, `j` included. -/
theorem Black_Is_Mated_iff_near (i j k : Int) (hj : Board_Square j) :
    Black_Is_Mated i j k 0 = true ↔
      ∀ c, Board_Square c →
        (-1 ≤ file c - file j ∧ file c - file j ≤ 1 ∧ -1 ≤ rank c - rank j ∧
          rank c - rank j ≤ 1) →
        Hawk_Attacks i k c = true ∨ Adjacent i c = true := by
  obtain ⟨j1, j2, j3, j4, ej⟩ := Board_Square_coords j hj
  rw [Black_Is_Mated_iff]
  constructor
  · intro h c hc hn
    obtain ⟨c1, c2, c3, c4, ec⟩ := Board_Square_coords c hc
    have e : j + (rank c - rank j) * 16 + (file c - file j) = c := by omega
    have h1 := h (file c - file j) ((mem_offsets _).2 (by omega))
      (rank c - rank j) ((mem_offsets _).2 (by omega))
    rw [e] at h1
    exact h1 hc.2.2
  · intro h a ha b hb hob
    rw [mem_offsets] at ha hb
    have hob2 := (On_Board_iff _).1 hob
    have hc : Board_Square (j + b * 16 + a) := by
      rw [Board_Square_iff]
      omega
    obtain ⟨c1, c2, c3, c4, ec⟩ := Board_Square_coords _ hc
    exact h _ hc (by omega)

/-- A mate is carried to a mate by each implemented reflection. -/
theorem Black_Is_Mated_reflect (g i j k : Int) (hg : Reflection g)
    (hi : Board_Square i) (hj : Board_Square j) (hk : Board_Square k)
    (h : Black_Is_Mated i j k 0 = true) :
    Black_Is_Mated (Apply_Symmetry g i) (Apply_Symmetry g j) (Apply_Symmetry g k) 0 = true := by
  obtain ⟨hj2, cj⟩ := Apply_Symmetry_coords g j hg hj
  rw [Black_Is_Mated_iff_near _ _ _ hj] at h
  rw [Black_Is_Mated_iff_near _ _ _ hj2]
  intro c hc hn
  obtain ⟨hc2, cc⟩ := Apply_Symmetry_coords g c hg hc
  have hinv := Apply_Symmetry_invol g c hg hc
  have hnear : -1 ≤ file (Apply_Symmetry g c) - file j ∧
      file (Apply_Symmetry g c) - file j ≤ 1 ∧ -1 ≤ rank (Apply_Symmetry g c) - rank j ∧
      rank (Apply_Symmetry g c) - rank j ≤ 1 := by
    rcases cj with ⟨rfl, a1, a2⟩ | ⟨rfl, a1, a2⟩ | ⟨rfl, a1, a2⟩ | ⟨rfl, a1, a2⟩ <;>
      rcases cc with ⟨e, b1, b2⟩ | ⟨e, b1, b2⟩ | ⟨e, b1, b2⟩ | ⟨e, b1, b2⟩ <;>
      first
        | exact absurd e (by decide)
        | omega
  rcases h _ hc2 hnear with h1 | h1
  · left
    have h2 := Hawk_Attacks_reflect g i k _ hg hi hk hc2 h1
    rw [hinv] at h2
    exact h2
  · right
    have h2 := Adjacent_reflect g i _ hg hi hc2 h1
    rw [hinv] at h2
    exact h2

/-- C5: for each of the reflections `sym_x`, `sym_y`, `sym_d1`, `sym_d2`, all
board squares `i`, `j`, `k` and either side to move, `Black_Is_Mated` has the
same value on the reflected position as on the position itself. -/
theorem Black_Is_Mated_symmetry (g i j k w : Int)
    (hg : g = sym_x ∨ g = sym_y ∨ g = sym_d1 ∨ g = sym_d2)
    (hi : Board_Square i) (hj : Board_Square j) (hk : Board_Square k) :
    Black_Is_Mated (Apply_Symmetry g i) (Apply_Symmetry g j) (Apply_Symmetry g k) w =
      Black_Is_Mated i j k w := by
  by_cases hw : w = 0
  · subst hw
    rw [Bool.eq_iff_iff]
    constructor
    · intro h
      have h2 := Black_Is_Mated_reflect g _ _ _ hg
        (Apply_Symmetry_coords g i hg hi).1 (Apply_Symmetry_coords g j hg hj).1
        (Apply_Symmetry_coords g k hg hk).1 h
      rw [Apply_Symmetry_invol g i hg hi, Apply_Symmetry_invol g j hg hj,
        Apply_Symmetry_invol g k hg hk] at h2
      exact h2
    · exact Black_Is_Mated_reflect g i j k hg hi hj hk
  · rw [Black_Is_Mated_white_on_move _ _ _ w hw, Black_Is_Mated_white_on_move _ _ _ w hw]

theorem Black_Is_Mated_symmetry_witness :
    (Board_Square 0 ∧ Board_Square 2 ∧ Board_Square 33) ∧
      Black_Is_Mated (Apply_Symmetry sym_d1 0) (Apply_Symmetry sym_d1 2)
        (Apply_Symmetry sym_d1 33) 0 = Black_Is_Mated 0 2 33 0 :=
  ⟨by decide,
    Black_Is_Mated_symmetry sym_d1 0 2 33 0 (Or.inr (Or.inr (Or.inl rfl)))
      (by decide) (by decide) (by decide)⟩


/-! ## The enumeration -/

theorem foldl_Files (l : List Int) (f : Files → Int → Files) (gm gp : Int → List Rec)
    (h : ∀ s x, f s x = { mate_file := s.mate_file ++ gm x, pos_file := s.pos_file ++ gp x })
    (s : Files) :
    l.foldl f s =
      { mate_file := s.mate_file ++ l.flatMap gm, pos_file := s.pos_file ++ l.flatMap gp } := by
  induction l generalizing s with
  | nil => simp
  | cons x l ih =>
    rw [List.foldl_cons, ih, h]
    simp [List.flatMap_cons, List.append_assoc]

theorem Create_body_eq (i j k : Int) (s : Files) :
    Create_body i j k s =
      { mate_file := s.mate_file ++ Create_mate_records i j k,
        pos_file := s.pos_file ++ Create_pos_records i j k } := by
  unfold Create_body Create_mate_records Create_pos_records
  by_cases h1 : Black_Is_Mated i j k 0 = true <;>
    by_cases h2 : Hawk_Attacks i k j = true <;> simp [h1, h2]

theorem ite_Files (c : Bool) (s : Files) (m p : List Rec) :
    (if c = true then ({ mate_file := s.mate_file ++ m, pos_file := s.pos_file ++ p } : Files)
      else s) =
      { mate_file := s.mate_file ++ (if c = true then m else []),
        pos_file := s.pos_file ++ (if c = true then p else []) } := by
  cases c <;> simp

theorem Create_loop_k_eq (i j : Int) (s : Files) :
    Create_loop_k i j s =
      { mate_file := s.mate_file ++ squares_loop.flatMap fun k =>
          if On_Board k && k != i && k != j then Create_mate_records i j k else [],
        pos_file := s.pos_file ++ squares_loop.flatMap fun k =>
          if On_Board k && k != i && k != j then Create_pos_records i j k else [] } := by
  unfold Create_loop_k
  generalize squares_loop = l
  refine foldl_Files l _
    (fun k => if On_Board k && k != i && k != j then Create_mate_records i j k else [])
    (fun k => if On_Board k && k != i && k != j then Create_pos_records i j k else []) ?_ s
  intro s k
  rw [← ite_Files, Create_body_eq]

theorem Create_loop_j_eq (i : Int) (s : Files) :
    Create_loop_j i s =
      { mate_file := s.mate_file ++ squares_loop.flatMap fun j =>
          if On_Board j && j != i && (Adjacent i j == false) then
            squares_loop.flatMap fun k =>
              if On_Board k && k != i && k != j then Create_mate_records i j k else []
          else [],
        pos_file := s.pos_file ++ squares_loop.flatMap fun j =>
          if On_Board j && j != i && (Adjacent i j == false) then
            squares_loop.flatMap fun k =>
              if On_Board k && k != i && k != j then Create_pos_records i j k else []
          else [] } := by
  unfold Create_loop_j
  refine foldl_Files squares_loop _
    (fun j => if On_Board j && j != i && (Adjacent i j == false) then
      squares_loop.flatMap fun k =>
        if On_Board k && k != i && k != j then Create_mate_records i j k else []
      else [])
    (fun j => if On_Board j && j != i && (Adjacent i j == false) then
      squares_loop.flatMap fun k =>
        if On_Board k && k != i && k != j then Create_pos_records i j k else []
      else []) ?_ s
  intro s j
  rw [← ite_Files, Create_loop_k_eq]

/-- The loops of `Create_KHK_Positions` from any starting state. -/
theorem Create_loop_i_eq (s : Files) :
    squares_loop.foldl
        (fun s i => if On_Board i && Is_Special_Square i then Create_loop_j i s else s) s =
      { mate_file := s.mate_file ++ Enumerate Create_mate_records,
        pos_file := s.pos_file ++ Enumerate Create_pos_records } := by
  unfold Enumerate
  refine foldl_Files squares_loop _
    (fun i => if On_Board i && Is_Special_Square i then
      squares_loop.flatMap fun j =>
        if On_Board j && j != i && (Adjacent i j == false) then
          squares_loop.flatMap fun k =>
            if On_Board k && k != i && k != j then Create_mate_records i j k else []
        else []
      else [])
    (fun i => if On_Board i && Is_Special_Square i then
      squares_loop.flatMap fun j =>
        if On_Board j && j != i && (Adjacent i j == false) then
          squares_loop.flatMap fun k =>
            if On_Board k && k != i && k != j then Create_pos_records i j k else []
        else []
      else []) ?_ s
  intro s i
  rw [← ite_Files, Create_loop_j_eq]

/-- The two files of `Create_KHK_Positions` as the records collected by its loops. -/
theorem Create_KHK_Positions_eq :
    Create_KHK_Positions =
      { mate_file := Enumerate Create_mate_records,
        pos_file := Enumerate Create_pos_records } := by
  have h := Create_loop_i_eq { mate_file := [], pos_file := [] }
  rw [List.nil_append, List.nil_append] at h
  rw [← h]
  rfl

theorem squares_loop_nodup : squares_loop.Nodup := by
  unfold squares_loop
  refine List.Nodup.map ?_ (List.nodup_range _)
  intro a b h
  exact Int.ofNat.inj h

theorem count_flatMap_single (r : Rec) (f : Int → List Rec) (x0 : Int)
    (hz : ∀ x, x ≠ x0 → r ∉ f x) (l : List Int) (hl : l.Nodup) :
    (l.flatMap f).count r = if x0 ∈ l then (f x0).count r else 0 := by
  induction l with
  | nil => simp
  | cons x l ih =>
    rw [List.nodup_cons] at hl
    rw [List.flatMap_cons, List.count_append, ih hl.2]
    by_cases hx : x = x0
    · subst hx
      simp [hl.1]
    · have h0 : (f x).count r = 0 := List.count_eq_zero_of_not_mem (hz x hx)
      have hne : ¬ x0 = x := fun h => hx h.symm
      simp [h0, hne]

theorem mem_Enumerate (cell : Int → Int → Int → List Rec) (r : Rec) :
    r ∈ Enumerate cell ↔
      ∃ i j k, Legal_Triple i j k ∧ r ∈ cell i j k := by
  unfold Enumerate
  simp only [List.mem_flatMap]
  constructor
  · rintro ⟨i, hi, h⟩
    split at h
    · rename_i gi
      rw [List.mem_flatMap] at h
      obtain ⟨j, hj, h⟩ := h
      split at h
      · rename_i gj
        rw [List.mem_flatMap] at h
        obtain ⟨k, hk, h⟩ := h
        split at h
        · rename_i gk
          simp only [Bool.and_eq_true, bne_iff_ne, ne_eq, beq_iff_eq] at gi gj gk
          rw [mem_squares_loop] at hi hj hk
          refine ⟨i, j, k, ⟨⟨hi.1, by omega, gi.1⟩, ⟨hj.1, by omega, gj.1.1⟩,
            ⟨hk.1, by omega, gk.1.1⟩, fun e => gj.1.2 e.symm, fun e => gk.1.2 e.symm,
            fun e => gk.2 e.symm, gi.2, gj.2⟩, h⟩
        · exact absurd h (List.not_mem_nil _)
      · exact absurd h (List.not_mem_nil _)
    · exact absurd h (List.not_mem_nil _)
  · rintro ⟨i, j, k, ⟨hi, hj, hk, hij, hik, hjk, hs, hadj⟩, h⟩
    have mi : i ∈ squares_loop := (mem_squares_loop i).2 ⟨hi.1, by have := hi.2.1; omega⟩
    have mj : j ∈ squares_loop := (mem_squares_loop j).2 ⟨hj.1, by have := hj.2.1; omega⟩
    have mk : k ∈ squares_loop := (mem_squares_loop k).2 ⟨hk.1, by have := hk.2.1; omega⟩
    refine ⟨i, mi, ?_⟩
    rw [if_pos (by simp [hi.2.2, hs])]
    rw [List.mem_flatMap]
    refine ⟨j, mj, ?_⟩
    rw [if_pos (by simp [hj.2.2, hadj, Ne.symm hij])]
    rw [List.mem_flatMap]
    refine ⟨k, mk, ?_⟩
    rw [if_pos (by simp [hk.2.2, Ne.symm hik, Ne.symm hjk])]
    exact h

theorem count_Enumerate (cell : Int → Int → Int → List Rec)
    (hcell : ∀ i j k r, r ∈ cell i j k → r.1 = i ∧ r.2.1 = j ∧ r.2.2.1 = k)
    (i j k w : Int) (h : Legal_Triple i j k) :
    (Enumerate cell).count (i, j, k, w) = (cell i j k).count (i, j, k, w) := by
  obtain ⟨hi, hj, hk, hij, hik, hjk, hs, hadj⟩ := h
  have mi : i ∈ squares_loop := (mem_squares_loop i).2 ⟨hi.1, by have := hi.2.1; omega⟩
  have mj : j ∈ squares_loop := (mem_squares_loop j).2 ⟨hj.1, by have := hj.2.1; omega⟩
  have mk : k ∈ squares_loop := (mem_squares_loop k).2 ⟨hk.1, by have := hk.2.1; omega⟩
  unfold Enumerate
  rw [count_flatMap_single (i, j, k, w) _ i ?_ squares_loop squares_loop_nodup, if_pos mi,
    if_pos (by simp [hi.2.2, hs]),
    count_flatMap_single (i, j, k, w) _ j ?_ squares_loop squares_loop_nodup, if_pos mj,
    if_pos (by simp [hj.2.2, hadj, Ne.symm hij]),
    count_flatMap_single (i, j, k, w) _ k ?_ squares_loop squares_loop_nodup, if_pos mk,
    if_pos (by simp [hk.2.2, Ne.symm hik, Ne.symm hjk])]
  · intro x hx hmem
    split at hmem
    · exact hx (hcell _ _ _ _ hmem).2.2.symm
    · exact absurd hmem (List.not_mem_nil _)
  · intro x hx hmem
    split at hmem
    · rw [List.mem_flatMap] at hmem
      obtain ⟨k', -, hmem⟩ := hmem
      split at hmem
      · exact hx (hcell _ _ _ _ hmem).2.1.symm
      · exact absurd hmem (List.not_mem_nil _)
    · exact absurd hmem (List.not_mem_nil _)
  · intro x hx hmem
    split at hmem
    · rw [List.mem_flatMap] at hmem
      obtain ⟨j', -, hmem⟩ := hmem
      split at hmem
      · rw [List.mem_flatMap] at hmem
        obtain ⟨k', -, hmem⟩ := hmem
        split at hmem
        · exact hx (hcell _ _ _ _ hmem).1.symm
        · exact absurd hmem (List.not_mem_nil _)
      · exact absurd hmem (List.not_mem_nil _)
    · exact absurd hmem (List.not_mem_nil _)

theorem mem_Create_mate_records (i j k : Int) (r : Rec) :
    r ∈ Create_mate_records i j k ↔ Black_Is_Mated i j k 0 = true ∧ r = (i, j, k, 0) := by
  unfold Create_mate_records
  by_cases h : Black_Is_Mated i j k 0 = true <;> simp [h]

theorem mem_Create_pos_records (i j k : Int) (r : Rec) :
    r ∈ Create_pos_records i j k ↔
      (Black_Is_Mated i j k 0 = false ∧ r = (i, j, k, 0)) ∨
        (Hawk_Attacks i k j = false ∧ r = (i, j, k, 1)) := by
  unfold Create_pos_records
  by_cases h : Black_Is_Mated i j k 0 = true <;>
    by_cases h2 : Hawk_Attacks i k j = true <;> simp [h, h2]

theorem Create_mate_records_cell (i j k : Int) (r : Rec) (h : r ∈ Create_mate_records i j k) :
    r.1 = i ∧ r.2.1 = j ∧ r.2.2.1 = k := by
  rw [mem_Create_mate_records] at h
  rw [h.2]
  exact ⟨rfl, rfl, rfl⟩

theorem Create_pos_records_cell (i j k : Int) (r : Rec) (h : r ∈ Create_pos_records i j k) :
    r.1 = i ∧ r.2.1 = j ∧ r.2.2.1 = k := by
  rw [mem_Create_pos_records] at h
  rcases h with h | h <;> rw [h.2] <;> exact ⟨rfl, rfl, rfl⟩

theorem count_black_record (i j k : Int) :
    (Create_mate_records i j k).count (i, j, k, 0) +
      (Create_pos_records i j k).count (i, j, k, 0) = 1 := by
  unfold Create_mate_records Create_pos_records
  by_cases h : Black_Is_Mated i j k 0 = true <;>
    by_cases h2 : Hawk_Attacks i k j = true <;> simp [h, h2]

theorem count_white_record (i j k : Int) :
    (Create_mate_records i j k).count (i, j, k, 1) +
      (Create_pos_records i j k).count (i, j, k, 1) =
        if Hawk_Attacks i k j = true then 0 else 1 := by
  unfold Create_mate_records Create_pos_records
  by_cases h : Black_Is_Mated i j k 0 = true <;>
    by_cases h2 : Hawk_Attacks i k j = true <;> simp [h, h2]

/-- C1: for every triple of pairwise distinct board squares with the white
king on a special square and the kings not adjacent, the black-to-move record
occurs exactly once in `KHK.0` followed by `KHK.pos`, the white-to-move record
occurs exactly once when the hawk does not attack the black king and not at
all when it does; and every record written is one of these. -/
theorem Create_KHK_Positions_exactly_once (i j k : Int) (h : Legal_Triple i j k) :
    (Create_KHK_Positions.mate_file ++ Create_KHK_Positions.pos_file).count (i, j, k, 0) = 1 ∧
      (Hawk_Attacks i k j = false →
        (Create_KHK_Positions.mate_file ++ Create_KHK_Positions.pos_file).count
          (i, j, k, 1) = 1) ∧
      (Hawk_Attacks i k j = true →
        (Create_KHK_Positions.mate_file ++ Create_KHK_Positions.pos_file).count
          (i, j, k, 1) = 0) ∧
      ∀ r ∈ Create_KHK_Positions.mate_file ++ Create_KHK_Positions.pos_file,
        ∃ i' j' k', Legal_Triple i' j' k' ∧
          (r = (i', j', k', 0) ∨ (r = (i', j', k', 1) ∧ Hawk_Attacks i' k' j' = false)) := by
  rw [Create_KHK_Positions_eq]
  simp only [List.count_append]
  rw [count_Enumerate _ Create_mate_records_cell i j k 0 h,
    count_Enumerate _ Create_pos_records_cell i j k 0 h,
    count_Enumerate _ Create_mate_records_cell i j k 1 h,
    count_Enumerate _ Create_pos_records_cell i j k 1 h, count_black_record,
    count_white_record]
  refine ⟨rfl, fun h1 => by simp [h1], fun h1 => by simp [h1], ?_⟩
  intro r hr
  rw [List.mem_append, mem_Enumerate, mem_Enumerate] at hr
  rcases hr with ⟨i', j', k', hl, hm⟩ | ⟨i', j', k', hl, hm⟩
  · rw [mem_Create_mate_records] at hm
    exact ⟨i', j', k', hl, Or.inl hm.2⟩
  · rw [mem_Create_pos_records] at hm
    rcases hm with hm | hm
    · exact ⟨i', j', k', hl, Or.inl hm.2⟩
    · exact ⟨i', j', k', hl, Or.inr ⟨hm.2, hm.1⟩⟩

theorem Create_KHK_Positions_exactly_once_witness :
    Legal_Triple 0 2 33 ∧
      ((Create_KHK_Positions.mate_file ++ Create_KHK_Positions.pos_file).count (0, 2, 33, 0) = 1 ∧
      (Hawk_Attacks 0 33 2 = false →
        (Create_KHK_Positions.mate_file ++ Create_KHK_Positions.pos_file).count
          (0, 2, 33, 1) = 1) ∧
      (Hawk_Attacks 0 33 2 = true →
        (Create_KHK_Positions.mate_file ++ Create_KHK_Positions.pos_file).count
          (0, 2, 33, 1) = 0) ∧
      ∀ r ∈ Create_KHK_Positions.mate_file ++ Create_KHK_Positions.pos_file,
        ∃ i' j' k', Legal_Triple i' j' k' ∧
          (r = (i', j', k', 0) ∨ (r = (i', j', k', 1) ∧ Hawk_Attacks i' k' j' = false))) :=
  ⟨by decide, Create_KHK_Positions_exactly_once 0 2 33 (by decide)⟩

/-- C8: for every triple `Create_KHK_Positions` enumerates, the black-to-move
record is in `KHK.0` iff `Black_Is_Mated` holds, and when it holds `KHK.pos`
contains neither the black-to-move nor the white-to-move record. -/
theorem mated_triple_in_mate_file_only (i j k : Int) (h : Legal_Triple i j k) :
    ((i, j, k, 0) ∈ Create_KHK_Positions.mate_file ↔ Black_Is_Mated i j k 0 = true) ∧
      (Black_Is_Mated i j k 0 = true →
        (i, j, k, 0) ∉ Create_KHK_Positions.pos_file ∧
          (i, j, k, 1) ∉ Create_KHK_Positions.pos_file) := by
  rw [Create_KHK_Positions_eq]
  simp only [mem_Enumerate, mem_Create_mate_records, mem_Create_pos_records]
  refine ⟨⟨?_, fun hm => ⟨i, j, k, h, hm, rfl⟩⟩, fun hm => ⟨?_, ?_⟩⟩
  · rintro ⟨i', j', k', -, hm, e⟩
    simp only [Prod.mk.injEq] at e
    obtain ⟨rfl, rfl, rfl, -⟩ := e
    exact hm
  · rintro ⟨i', j', k', -, ⟨hf, e⟩ | ⟨-, e⟩⟩
    · simp only [Prod.mk.injEq] at e
      obtain ⟨rfl, rfl, rfl, -⟩ := e
      rw [hm] at hf
      exact absurd hf (by decide)
    · simp only [Prod.mk.injEq] at e
      exact absurd e.2.2.2 (by decide)
  · rintro ⟨i', j', k', -, ⟨-, e⟩ | ⟨hf, e⟩⟩
    · simp only [Prod.mk.injEq] at e
      exact absurd e.2.2.2 (by decide)
    · simp only [Prod.mk.injEq] at e
      obtain ⟨rfl, rfl, rfl, -⟩ := e
      obtain ⟨-, hj, -, -, -, -, -, hadj⟩ := h
      rcases Black_Is_Mated_own_square i j k hj.2.2 hm with h1 | h1
      · rw [hf] at h1
        exact absurd h1 (by decide)
      · rw [hadj] at h1
        exact absurd h1 (by decide)

theorem mated_triple_in_mate_file_only_witness :
    (Legal_Triple 0 2 33 ∧ Black_Is_Mated 0 2 33 0 = true) ∧
      (((0, 2, 33, 0) ∈ Create_KHK_Positions.mate_file ↔ Black_Is_Mated 0 2 33 0 = true) ∧
        (Black_Is_Mated 0 2 33 0 = true →
          (0, 2, 33, 0) ∉ Create_KHK_Positions.pos_file ∧
            (0, 2, 33, 1) ∉ Create_KHK_Positions.pos_file)) :=
  ⟨by decide, mated_triple_in_mate_file_only 0 2 33 (by decide)⟩

/-! ## The black pass -/

theorem Hawk_Attacks_swap_imp (a b c : Int) (h : Hawk_Attacks a b c = true) :
    Hawk_Attacks a c b = true := by
  rw [Hawk_Attacks_iff] at h ⊢
  rcases h with h | h | h
  · left; omega
  · right; left; omega
  · right; right; omega

/-- The hawk's attack does not depend on which of the two squares holds the hawk. -/
theorem Hawk_Attacks_swap (a b c : Int) : Hawk_Attacks a b c = Hawk_Attacks a c b := by
  rw [Bool.eq_iff_iff]
  exact ⟨Hawk_Attacks_swap_imp a b c, Hawk_Attacks_swap_imp a c b⟩

theorem File_Has_iff (f : List Rec) (x y z w : Int) :
    File_Has f x y z w = true ↔ (x, y, z, w) ∈ f := by
  unfold File_Has
  rw [List.any_eq_true]
  constructor
  · rintro ⟨r, hr, h⟩
    simp only [Bool.and_eq_true, beq_iff_eq] at h
    obtain ⟨⟨⟨h1, h2⟩, h3⟩, h4⟩ := h
    have e : r = (x, y, z, w) := by
      rw [← h1, ← h2, ← h3, ← h4]
    rw [← e]
    exact hr
  · intro h
    exact ⟨_, h, by simp⟩

theorem mem_odd_depths (m p : Int) : p ∈ odd_depths m ↔ p % 2 = 1 ∧ 1 ≤ p ∧ p ≤ m - 1 := by
  unfold odd_depths
  simp only [List.mem_map, List.mem_range]
  constructor
  · rintro ⟨t, ht, rfl⟩
    omega
  · rintro ⟨h1, h2, h3⟩
    exact ⟨((p - 1) / 2).toNat, by omega, by omega⟩

theorem mem_Lines_Read (f : List Rec) (r : Rec) : r ∈ Lines_Read f ↔ r ∈ f := by
  unfold Lines_Read
  rw [List.mem_append]
  constructor
  · rintro (h | h)
    · exact h
    · rw [Option.mem_toList] at h
      exact List.mem_of_getLast?_eq_some h
  · exact Or.inl

theorem Black_step_eq (m : Int) (khk : Int → List Rec) (s : Pass) (rec : Rec) :
    Black_step m khk s rec =
      { out_file := s.out_file ++ (if Black_accepts m khk rec = true then [rec] else []),
        new_file := s.new_file ++ (if Black_accepts m khk rec = true then [] else [rec]) } := by
  show (if Black_accepts m khk rec = true then
      ({ s with out_file := s.out_file ++ [rec] } : Pass)
    else { s with new_file := s.new_file ++ [rec] }) = _
  split <;> simp

theorem foldl_Pass (f : Pass → Rec → Pass) (P : Rec → Bool)
    (h : ∀ s r, f s r =
      { out_file := s.out_file ++ (if P r = true then [r] else []),
        new_file := s.new_file ++ (if P r = true then [] else [r]) })
    (l : List Rec) (s : Pass) :
    l.foldl f s =
      { out_file := s.out_file ++ l.filter P,
        new_file := s.new_file ++ l.filter (fun r => !P r) } := by
  induction l generalizing s with
  | nil => simp
  | cons x l ih =>
    rw [List.foldl_cons, ih, h]
    by_cases hp : P x = true <;> simp [hp, List.filter_cons]

/-- The two files of `Black_One_Ply_More` as the accepted and the rejected records. -/
theorem Black_One_Ply_More_eq (m : Int) (khk : Int → List Rec) (current : List Rec) :
    Black_One_Ply_More m khk current =
      { out_file := (Lines_Read current).filter (Black_accepts m khk),
        new_file := (Lines_Read current).filter (fun r => !Black_accepts m khk r) } := by
  unfold Black_One_Ply_More
  rw [foldl_Pass _ (Black_accepts m khk) (Black_step_eq m khk)]
  simp

theorem Black_so_far_so_good_iff (m : Int) (khk : Int → List Rec) (i j k : Int) :
    Black_so_far_so_good m khk i j k = true ↔ Escapes_Covered m khk i j k := by
  unfold Black_so_far_so_good Escapes_Covered
  simp only [List.all_eq_true]
  constructor
  · intro h b hb c hc hne hob hadj hha
    have h1 := h b hb c hc
    rw [show j + b * 16 + c = j + 16 * b + c by ring, Hawk_Attacks_swap i _ k,
      if_pos (by simp [hob, hne, hadj, hha]), List.any_eq_true] at h1
    obtain ⟨p, hp, hf⟩ := h1
    rw [mem_odd_depths] at hp
    exact ⟨p, hp.1, hp.2.1, hp.2.2, (File_Has_iff _ _ _ _ _).1 hf⟩
  · intro h b hb c hc
    rw [show j + b * 16 + c = j + 16 * b + c by ring, Hawk_Attacks_swap i _ k]
    split
    · rename_i hg
      simp only [Bool.and_eq_true, bne_iff_ne, ne_eq, Bool.not_eq_true'] at hg
      obtain ⟨p, h1, h2, h3, h4⟩ := h b hb c hc hg.1.1.2 hg.1.1.1 hg.1.2 hg.2
      rw [List.any_eq_true]
      exact ⟨p, (mem_odd_depths m p).2 ⟨h1, h2, h3⟩, (File_Has_iff _ _ _ _ _).2 h4⟩
    · rfl

/-- C4: a black-to-move record of the undecided list read by
`Black_One_Ply_More m` is written to the new depth set iff every legal
black-king move is answered in one of `KHK.1, KHK.3, ..., KHK.(m-1)` and the
position is not a stalemate, and otherwise to the new undecided list; every
white-to-move record of the undecided list is written to the new undecided
list, and no white-to-move record is written to the new depth set. -/
theorem Black_One_Ply_More_classifies (m : Int) (khk : Int → List Rec) (current : List Rec)
    (i j k : Int) :
    ((i, j, k, 0) ∈ current →
        ((i, j, k, 0) ∈ (Black_One_Ply_More m khk current).out_file ↔
          Escapes_Covered m khk i j k ∧ Is_Stalemate i j k 0 = false) ∧
        ((i, j, k, 0) ∈ (Black_One_Ply_More m khk current).new_file ↔
          ¬ (Escapes_Covered m khk i j k ∧ Is_Stalemate i j k 0 = false))) ∧
      ((i, j, k, 1) ∈ current →
        (i, j, k, 1) ∈ (Black_One_Ply_More m khk current).new_file) ∧
      (i, j, k, 1) ∉ (Black_One_Ply_More m khk current).out_file := by
  rw [Black_One_Ply_More_eq]
  have hacc : Black_accepts m khk (i, j, k, 0) = true ↔
      Escapes_Covered m khk i j k ∧ Is_Stalemate i j k 0 = false := by
    unfold Black_accepts
    simp only [show ((0 : Int) == 1) = false by decide, Bool.false_eq_true, if_false,
      Bool.and_eq_true, Bool.not_eq_true', Black_so_far_so_good_iff]
  have hw : Black_accepts m khk (i, j, k, 1) = false := by
    simp [Black_accepts]
  refine ⟨fun h => ⟨?_, ?_⟩, fun h => ?_, ?_⟩
  · rw [List.mem_filter, mem_Lines_Read, hacc]
    exact ⟨fun h1 => h1.2, fun h1 => ⟨h, h1⟩⟩
  · rw [List.mem_filter, mem_Lines_Read, ← hacc]
    simp [h]
  · simp only [List.mem_filter, mem_Lines_Read, hw, h]
    simp
  · simp only [List.mem_filter, mem_Lines_Read, hw]
    simp

theorem Black_One_Ply_More_classifies_witness :
    ((18, 0, 2, 0) ∈ [((18, 0, 2, 0) : Rec), (18, 0, 2, 1)] ∧
        (18, 0, 2, 1) ∈ [((18, 0, 2, 0) : Rec), (18, 0, 2, 1)]) ∧
      (((18, 0, 2, 0) ∈
          (Black_One_Ply_More 2 (fun _ => []) [(18, 0, 2, 0), (18, 0, 2, 1)]).out_file ↔
          Escapes_Covered 2 (fun _ => []) 18 0 2 ∧ Is_Stalemate 18 0 2 0 = false) ∧
        ((18, 0, 2, 0) ∈
          (Black_One_Ply_More 2 (fun _ => []) [(18, 0, 2, 0), (18, 0, 2, 1)]).new_file ↔
          ¬ (Escapes_Covered 2 (fun _ => []) 18 0 2 ∧ Is_Stalemate 18 0 2 0 = false))) ∧
      (18, 0, 2, 1) ∈
        (Black_One_Ply_More 2 (fun _ => []) [(18, 0, 2, 0), (18, 0, 2, 1)]).new_file ∧
      (18, 0, 2, 1) ∉
        (Black_One_Ply_More 2 (fun _ => []) [(18, 0, 2, 0), (18, 0, 2, 1)]).out_file :=
  ⟨by decide,
    (Black_One_Ply_More_classifies 2 (fun _ => []) [(18, 0, 2, 0), (18, 0, 2, 1)] 18 0 2).1
      (by decide),
    (Black_One_Ply_More_classifies 2 (fun _ => []) [(18, 0, 2, 0), (18, 0, 2, 1)] 18 0 2).2.1
      (by decide),
    (Black_One_Ply_More_classifies 2 (fun _ => []) [(18, 0, 2, 0), (18, 0, 2, 1)] 18 0 2).2.2⟩

/-! ## Closure of the board under `Apply_Symmetry` -/

theorem Apply_Symmetry_fallback (g s : Int) (h1 : g ≠ sym_d1) (h2 : g ≠ sym_y)
    (h3 : g ≠ sym_d2) (h4 : g ≠ sym_x) : Apply_Symmetry g s = 0 := by
  unfold Apply_Symmetry
  rw [if_neg h1, if_neg h2, if_neg h3, if_neg h4]

/-- C11: for each of the eight symmetry constants and every board square
`s`, `Apply_Symmetry g s` passes `On_Board` (the four reflections map the
board to itself, the other four codes return square 0). -/
theorem Apply_Symmetry_On_Board (g s : Int)
    (hg : g = sym_id ∨ g = sym_x ∨ g = sym_y ∨ g = sym_d1 ∨ g = sym_d2 ∨
      g = sym_r90 ∨ g = sym_r180 ∨ g = sym_r270)
    (hs : Board_Square s) :
    On_Board (Apply_Symmetry g s) = true := by
  have h0 : ∀ g', g' ≠ sym_d1 → g' ≠ sym_y → g' ≠ sym_d2 → g' ≠ sym_x →
      On_Board (Apply_Symmetry g' s) = true := by
    intro g' h1 h2 h3 h4
    rw [Apply_Symmetry_fallback g' s h1 h2 h3 h4]
    rfl
  rcases hg with rfl | rfl | rfl | rfl | rfl | rfl | rfl | rfl
  · exact h0 _ (by decide) (by decide) (by decide) (by decide)
  · exact (Apply_Symmetry_coords sym_x s (Or.inl rfl) hs).1.2.2
  · exact (Apply_Symmetry_coords sym_y s (Or.inr (Or.inl rfl)) hs).1.2.2
  · exact (Apply_Symmetry_coords sym_d1 s (Or.inr (Or.inr (Or.inl rfl))) hs).1.2.2
  · exact (Apply_Symmetry_coords sym_d2 s (Or.inr (Or.inr (Or.inr rfl))) hs).1.2.2
  · exact h0 _ (by decide) (by decide) (by decide) (by decide)
  · exact h0 _ (by decide) (by decide) (by decide) (by decide)
  · exact h0 _ (by decide) (by decide) (by decide) (by decide)

theorem Apply_Symmetry_On_Board_witness :
    Board_Square 0x26 ∧ On_Board (Apply_Symmetry sym_d2 0x26) = true :=
  ⟨by decide,
    Apply_Symmetry_On_Board sym_d2 0x26 (Or.inr (Or.inr (Or.inr (Or.inr (Or.inl rfl)))))
      (by decide)⟩

/-! ## Adjacency -/

/-- C13: for board squares `a` and `b`, `Adjacent a b` holds iff the larger
of the file distance and the rank distance is 1. -/
theorem Adjacent_iff_king_step (a b : Int) (ha : Board_Square a) (hb : Board_Square b) :
    Adjacent a b = true ↔ max |file a - file b| |rank a - rank b| = 1 := by
  rw [Adjacent_iff_coords a b ha hb]
  rcases sign_abs_cases (file a - file b) with ⟨-, e1, h1⟩ | ⟨-, e1, h1⟩ | ⟨-, e1, h1⟩ <;>
    rcases sign_abs_cases (rank a - rank b) with ⟨-, e2, h2⟩ | ⟨-, e2, h2⟩ | ⟨-, e2, h2⟩ <;>
    rw [e1, e2] <;> omega

theorem Adjacent_iff_king_step_witness :
    (Board_Square 0x34 ∧ Board_Square 0x25) ∧
      (Adjacent 0x34 0x25 = true ↔ max |file 0x34 - file 0x25| |rank 0x34 - rank 0x25| = 1) :=
  ⟨by decide, Adjacent_iff_king_step 0x34 0x25 (by decide) (by decide)⟩

/-! ## Mate implies check -/

/-- C16: when `j` passes `On_Board` and the kings are not adjacent, a mate has
the black king attacked by the hawk, so `Black_Is_Mated` and `Is_Stalemate`
are not both true. -/
theorem mate_implies_check (i j k : Int) (hj : On_Board j = true)
    (hadj : Adjacent i j = false) :
    (Black_Is_Mated i j k 0 = true → Hawk_Attacks i k j = true) ∧
      ¬ (Black_Is_Mated i j k 0 = true ∧ Is_Stalemate i j k 0 = true) := by
  have hc : Black_Is_Mated i j k 0 = true → Hawk_Attacks i k j = true := by
    intro hm
    rcases Black_Is_Mated_own_square i j k hj hm with h | h
    · exact h
    · rw [hadj] at h
      exact absurd h (by decide)
  refine ⟨hc, ?_⟩
  rintro ⟨hm, hs⟩
  have h1 := hc hm
  rw [Is_Stalemate_not_attacked i j k 0 hs] at h1
  exact absurd h1 (by decide)

theorem mate_implies_check_witness :
    (On_Board 2 = true ∧ Adjacent 0 2 = false ∧ Black_Is_Mated 0 2 33 0 = true) ∧
      ((Black_Is_Mated 0 2 33 0 = true → Hawk_Attacks 0 33 2 = true) ∧
        ¬ (Black_Is_Mated 0 2 33 0 = true ∧ Is_Stalemate 0 2 33 0 = true)) :=
  ⟨by decide, mate_implies_check 0 2 33 (by decide) (by decide)⟩

/-! ## Symmetry of the hawk's attack -/

theorem wrap32_of_Is_int32 (x : Int) (h : Is_int32 x) : wrap32 x = x := by
  unfold Is_int32 at h
  unfold wrap32
  omega

theorem Hawk_Attacks_int32_eq (a b c : Int) (ha : Small_int a) (hb : Small_int b)
    (hc : Small_int c) : Hawk_Attacks_int32 a b c = Hawk_Attacks a b c := by
  unfold Small_int at ha hb hc
  have w : ∀ x : Int, -2147483648 ≤ x → x ≤ 2147483647 → wrap32 x = x :=
    fun x h1 h2 => wrap32_of_Is_int32 x ⟨h1, h2⟩
  unfold Hawk_Attacks_int32 Hawk_Attacks
  rw [w (b - 33) (by omega) (by omega), w (b - 31) (by omega) (by omega),
    w (b - 18) (by omega) (by omega), w (b - 14) (by omega) (by omega),
    w (b + 14) (by omega) (by omega), w (b + 18) (by omega) (by omega),
    w (b + 31) (by omega) (by omega), w (b + 33) (by omega) (by omega),
    w (c - b) (by omega) (by omega), w (c - a) (by omega) (by omega)]

/-- C17 (as stated, refuted): on 32-bit `int` arguments the function is not
symmetric in its last two arguments.  With the white king on 8, a hawk on
`-2147483632` and the target `2147483647`, `c - b` wraps to `-17` and
`c - a = 2147483639` is a multiple of 17 with `b < a < c`, so the call is
blocked and returns false; with hawk and target exchanged `b - a` is
`-2147483640`, not a multiple of 17, nothing blocks and the call returns
true. -/
theorem Hawk_Attacks_int32_not_symmetric :
    Is_int32 8 ∧ Is_int32 (-2147483632) ∧ Is_int32 2147483647 ∧
      Hawk_Attacks_int32 8 (-2147483632) 2147483647 = false ∧
      Hawk_Attacks_int32 8 2147483647 (-2147483632) = true ∧
      ¬ ∀ a b c : Int, Is_int32 a → Is_int32 b → Is_int32 c →
        Hawk_Attacks_int32 a b c = Hawk_Attacks_int32 a c b := by
  refine ⟨by decide, by decide, by decide, by decide, by decide, ?_⟩
  intro h
  exact absurd (h 8 (-2147483632) 2147483647 (by decide) (by decide) (by decide)) (by decide)

/-- C17 (amended): for all integers `a`, `b`, `c` with `-2^30 ≤ a, b, c < 2^30`
(where no `b ± n`, `c - b` or `c - a` leaves the 32-bit range; every square
`0 .. 0x77` is among them), `Hawk_Attacks a b c` and `Hawk_Attacks a c b`
computed in 32-bit arithmetic have the same value, and both equal the value
computed over the integers. -/
theorem Hawk_Attacks_int32_symmetric (a b c : Int) (ha : Small_int a) (hb : Small_int b)
    (hc : Small_int c) :
    Hawk_Attacks_int32 a b c = Hawk_Attacks_int32 a c b ∧
      Hawk_Attacks_int32 a b c = Hawk_Attacks a b c := by
  refine ⟨?_, Hawk_Attacks_int32_eq a b c ha hb hc⟩
  rw [Hawk_Attacks_int32_eq a b c ha hb hc, Hawk_Attacks_int32_eq a c b ha hc hb]
  exact Hawk_Attacks_swap a b c

theorem Hawk_Attacks_int32_symmetric_witness :
    (Small_int 0 ∧ Small_int 0x11 ∧ Small_int 0x77) ∧
      Hawk_Attacks_int32 0 0x11 0x77 = Hawk_Attacks_int32 0 0x77 0x11 ∧
      Hawk_Attacks_int32 0 0x11 0x77 = Hawk_Attacks 0 0x11 0x77 ∧
      Hawk_Attacks_int32 0 0x11 0x77 = true :=
  ⟨by decide, (Hawk_Attacks_int32_symmetric 0 0x11 0x77 (by decide) (by decide) (by decide)).1,
    (Hawk_Attacks_int32_symmetric 0 0x11 0x77 (by decide) (by decide) (by decide)).2,
    by decide⟩

/-! ## The hawk does not slide over the black king -/

theorem Hawk_Attacks_between (i j k b : Int) (hi : Board_Square i) (hj : Board_Square j)
    (hk : Board_Square k) (hb : Board_Square b) (h : Hawk_Attacks i k b = true)
    (hbt : Between_On_Diagonal k j b) : Hawk_Attacks i k j = true := by
  rw [Board_Square_iff] at hi hj hk hb
  rw [Hawk_Attacks_iff] at h ⊢
  obtain ⟨hd, ho⟩ := hbt
  rcases hd with ⟨d1, d2⟩ | ⟨d1, d2⟩
  · right; left
    rcases h with h | h | h
    · omega
    · refine ⟨d1, by omega, ?_, ?_⟩
      · rintro ⟨e1, e2, e3⟩
        apply h.2.2.1
        omega
      · rintro ⟨e1, e2, e3⟩
        apply h.2.2.2
        omega
    · omega
  · right; right
    rcases h with h | h | h
    · omega
    · omega
    · refine ⟨d1, by omega, ?_, ?_⟩
      · rintro ⟨e1, e2, e3⟩
        apply h.2.2.1
        omega
      · rintro ⟨e1, e2, e3⟩
        apply h.2.2.2
        omega

/-- C18: for board squares `i`, `j`, `k`, `b`, if the hawk on `k` attacks `b`
and `j` lies strictly between `k` and `b` on a common diagonal, then the hawk
attacks `j`; hence when the black king on `j` is not attacked, no destination
`b` accepted by the hawk loop of `White_One_Ply_More` lies beyond `j`. -/
theorem hawk_retraction_not_over_black_king (i j k b : Int)
    (hi : Board_Square i) (hj : Board_Square j) (hk : Board_Square k) (hb : Board_Square b) :
    (Hawk_Attacks i k b = true → Between_On_Diagonal k j b → Hawk_Attacks i k j = true) ∧
      (Hawk_Attacks i k j = false →
        (On_Board b && Hawk_Attacks i k b && b != i && b != k && b != j) = true →
          ¬ Between_On_Diagonal k j b) := by
  refine ⟨fun h hbt => Hawk_Attacks_between i j k b hi hj hk hb h hbt, ?_⟩
  intro hn hacc hbt
  simp only [Bool.and_eq_true] at hacc
  have h1 := Hawk_Attacks_between i j k b hi hj hk hb hacc.1.1.1.2 hbt
  rw [hn] at h1
  exact absurd h1 (by decide)

theorem hawk_retraction_not_over_black_king_witness :
    (Board_Square 0 ∧ Board_Square 0x33 ∧ Board_Square 0x11 ∧ Board_Square 0x55 ∧
        Hawk_Attacks 0 0x11 0x55 = true ∧ Between_On_Diagonal 0x11 0x33 0x55) ∧
      ((Hawk_Attacks 0 0x11 0x55 = true → Between_On_Diagonal 0x11 0x33 0x55 →
          Hawk_Attacks 0 0x11 0x33 = true) ∧
        (Hawk_Attacks 0 0x11 0x33 = false →
          (On_Board 0x55 && Hawk_Attacks 0 0x11 0x55 && (0x55 : Int) != 0 &&
            (0x55 : Int) != 0x11 && (0x55 : Int) != 0x33) = true →
            ¬ Between_On_Diagonal 0x11 0x33 0x55)) :=
  ⟨by decide,
    hawk_retraction_not_over_black_king 0 0x33 0x11 0x55 (by decide) (by decide) (by decide)
      (by decide)⟩

/-! ## A capturable hawk -/

theorem Adjacent_offsets (j k : Int) (h : Adjacent j k = true) :
    ∃ b ∈ offsets, ∃ c ∈ offsets, j + 16 * b + c = k ∧ j + 16 * b + c ≠ j := by
  unfold Adjacent at h
  simp only [Bool.or_eq_true, beq_iff_eq] at h
  rcases h with ((((((h | h) | h) | h) | h) | h) | h) | h
  · exact ⟨0, by decide, 1, by decide, by omega, by omega⟩
  · exact ⟨0, by decide, -1, by decide, by omega, by omega⟩
  · exact ⟨-1, by decide, -1, by decide, by omega, by omega⟩
  · exact ⟨-1, by decide, 0, by decide, by omega, by omega⟩
  · exact ⟨-1, by decide, 1, by decide, by omega, by omega⟩
  · exact ⟨1, by decide, -1, by decide, by omega, by omega⟩
  · exact ⟨1, by decide, 0, by decide, by omega, by omega⟩
  · exact ⟨1, by decide, 1, by decide, by omega, by omega⟩

/-- C19: a black-to-move record of the undecided list whose hawk stands on the
board next to the black king and not next to the white king is written by
`Black_One_Ply_More m` to the new undecided list and not to the depth set,
provided no record of `KHK.1, KHK.3, ..., KHK.(m-1)` has the black king on the
hawk's square. -/
theorem capturable_hawk_stays_undecided (m : Int) (khk : Int → List Rec)
    (current : List Rec) (i j k : Int) (hrec : (i, j, k, 0) ∈ current)
    (hk : On_Board k = true) (hjk : Adjacent j k = true) (hik : Adjacent i k = false)
    (hfiles : No_King_On_Hawk m khk) :
    (i, j, k, 0) ∈ (Black_One_Ply_More m khk current).new_file ∧
      (i, j, k, 0) ∉ (Black_One_Ply_More m khk current).out_file := by
  have hnot : ¬ Escapes_Covered m khk i j k := by
    intro hcov
    obtain ⟨b, hb, c, hc, e, hne⟩ := Adjacent_offsets j k hjk
    have h1 := hcov b hb c hc hne
    rw [e] at h1
    obtain ⟨p, p1, p2, p3, hmem⟩ := h1 hk hik (Hawk_Attacks_self i k)
    exact hfiles p p1 p2 p3 _ hmem rfl
  have hacc : Black_accepts m khk (i, j, k, 0) = false := by
    rw [← Bool.not_eq_true]
    intro h
    unfold Black_accepts at h
    simp only [show ((0 : Int) == 1) = false by decide, Bool.false_eq_true, if_false,
      Bool.and_eq_true, Black_so_far_so_good_iff] at h
    exact hnot h.1
  rw [Black_One_Ply_More_eq]
  simp only [List.mem_filter, mem_Lines_Read, hacc, hrec]
  simp

theorem capturable_hawk_stays_undecided_witness :
    ((0, 0x22, 0x33, 0) ∈ [((0, 0x22, 0x33, 0) : Rec)] ∧ On_Board 0x33 = true ∧
        Adjacent 0x22 0x33 = true ∧ Adjacent 0 0x33 = false ∧
        No_King_On_Hawk 2 (fun _ => [(0, 0x23, 0x33, 1)])) ∧
      ((0, 0x22, 0x33, 0) ∈
          (Black_One_Ply_More 2 (fun _ => [(0, 0x23, 0x33, 1)])
            [(0, 0x22, 0x33, 0)]).new_file ∧
        (0, 0x22, 0x33, 0) ∉
          (Black_One_Ply_More 2 (fun _ => [(0, 0x23, 0x33, 1)])
            [(0, 0x22, 0x33, 0)]).out_file) :=
  have hf : No_King_On_Hawk 2 (fun _ => [(0, 0x23, 0x33, 1)]) := by
    intro p _ _ _ r hr
    rw [List.mem_singleton] at hr
    rw [hr]
    decide
  ⟨⟨by decide, by decide, by decide, by decide, hf⟩,
    capturable_hawk_stays_undecided 2 (fun _ => [(0, 0x23, 0x33, 1)]) [(0, 0x22, 0x33, 0)]
      0 0x22 0x33 (by decide) (by decide) (by decide) (by decide) hf⟩

/-! ## What a pass writes -/

theorem White_step_eq (old : List Rec) (s : Pass) (rec : Rec) :
    White_step old s rec =
      { out_file := s.out_file ++ (if White_accepts old rec = true then [rec] else []),
        new_file := s.new_file ++ (if White_accepts old rec = true then [] else [rec]) } := by
  unfold White_step White_accepts
  by_cases h0 : (rec.2.2.2 == 0) = true
  · simp [h0]
  · by_cases h1 : (White_hawk_retraction old rec.1 rec.2.1 rec.2.2.1 ||
        White_king_retraction old rec.1 rec.2.1 rec.2.2.1) = true
    · simp [h0, h1]
    · simp [h0, h1]

/-- The two files of `White_One_Ply_More` as the accepted and the rejected records. -/
theorem White_One_Ply_More_eq (m : Int) (khk : Int → List Rec) (current : List Rec) :
    White_One_Ply_More m khk current =
      { out_file := (Lines_Read current).filter (White_accepts (khk (m - 1))),
        new_file := (Lines_Read current).filter (fun r => !White_accepts (khk (m - 1)) r) } := by
  unfold White_One_Ply_More
  rw [foldl_Pass _ (White_accepts (khk (m - 1))) (White_step_eq (khk (m - 1)))]
  simp

theorem length_Lines_Read (f : List Rec) (h : f ≠ []) :
    (Lines_Read f).length = f.length + 1 := by
  unfold Lines_Read
  cases hl : f.getLast? with
  | none => exact absurd (List.getLast?_eq_none_iff.1 hl) h
  | some r => simp

theorem length_filter_add (P : Rec → Bool) (l : List Rec) :
    (l.filter P).length + (l.filter fun r => !P r).length = l.length := by
  induction l with
  | nil => rfl
  | cons x l ih =>
    by_cases hp : P x = true
    · simp [List.filter_cons, hp]
      omega
    · simp [List.filter_cons, hp]
      omega

/-- On a non-empty undecided list each pass writes one record more than it read. -/
theorem pass_output_length (m : Int) (khk : Int → List Rec) (current : List Rec)
    (h : current ≠ []) :
    (White_One_Ply_More m khk current).out_file.length +
        (White_One_Ply_More m khk current).new_file.length = current.length + 1 ∧
      (Black_One_Ply_More m khk current).out_file.length +
        (Black_One_Ply_More m khk current).new_file.length = current.length + 1 := by
  rw [White_One_Ply_More_eq, Black_One_Ply_More_eq]
  exact ⟨by rw [length_filter_add, length_Lines_Read current h],
    by rw [length_filter_add, length_Lines_Read current h]⟩

/-- C12 (the code at the failing input): on the undecided list that holds the
single white-to-move record `(51, 119, 118, 1)`, both passes write that record
twice to the new undecided list, which is longer than the list read: the body
of the reading loop runs once more after the last line. -/
theorem pass_writes_last_record_twice :
    White_One_Ply_More 1 (fun _ => [(0, 2, 33, 0)]) [(51, 119, 118, 1)] =
        { out_file := [], new_file := [(51, 119, 118, 1), (51, 119, 118, 1)] } ∧
      Black_One_Ply_More 2 (fun _ => [(0, 2, 33, 0)]) [(51, 119, 118, 1)] =
        { out_file := [], new_file := [(51, 119, 118, 1), (51, 119, 118, 1)] } := by
  constructor
  · decide!
  · decide!

/-! ## The depth-0 scenario of the specification -/

theorem no_mate_king_0_king_3 : ∀ k ∈ board_squares, Black_Is_Mated 0 3 k 0 = false := by
  decide!

/-- C20 (as stated, refuted): with the white king on 0 and the black king on
3 there is no board square `k`, different from both, with
`Black_Is_Mated 0 3 k 0` true. -/
theorem no_hawk_square_mates_king_on_3 :
    ¬ ∃ k : Int, Board_Square k ∧ k ≠ 0 ∧ k ≠ 3 ∧ Black_Is_Mated 0 3 k 0 = true := by
  rintro ⟨k, hk, -, -, hm⟩
  rw [no_mate_king_0_king_3 k ((mem_board_squares k).2 hk)] at hm
  exact absurd hm (by decide)

/-- C20 (amended): with the white king on 0 and the black king on 3,
`Black_Is_Mated 0 3 k 0` is false for every board square `k` and no record
`(0, 3, k, 0)` is written to `KHK.0`; with the black king on 2 and the hawk on
33 the position is a mate and its record is written to `KHK.0`. -/
theorem depth_0_scenario (k : Int) (hk : Board_Square k) :
    Black_Is_Mated 0 3 k 0 = false ∧ (0, 3, k, 0) ∉ Create_KHK_Positions.mate_file ∧
      Black_Is_Mated 0 2 33 0 = true ∧ (0, 2, 33, 0) ∈ Create_KHK_Positions.mate_file := by
  have h0 := no_mate_king_0_king_3 k ((mem_board_squares k).2 hk)
  rw [Create_KHK_Positions_eq]
  simp only [mem_Enumerate, mem_Create_mate_records]
  refine ⟨h0, ?_, by decide, ⟨0, 2, 33, by decide, by decide, rfl⟩⟩
  rintro ⟨i', j', k', -, hm, e⟩
  simp only [Prod.mk.injEq] at e
  obtain ⟨rfl, rfl, rfl, -⟩ := e
  rw [h0] at hm
  exact absurd hm (by decide)

theorem depth_0_scenario_witness :
    Board_Square 0x25 ∧
      (Black_Is_Mated 0 3 0x25 0 = false ∧ (0, 3, 0x25, 0) ∉ Create_KHK_Positions.mate_file ∧
        Black_Is_Mated 0 2 33 0 = true ∧ (0, 2, 33, 0) ∈ Create_KHK_Positions.mate_file) :=
  ⟨by decide, depth_0_scenario 0x25 (by decide)⟩

/-! ## Counting the records of the enumeration -/

theorem nat_beq_iff (a b : Nat) : Nat.beq a b = true ↔ a = b :=
  ⟨Nat.eq_of_beq_eq_true, fun h => by rw [h]; exact Nat.beq_refl b⟩

theorem nat_blt_iff (a b : Nat) : Nat.blt a b = true ↔ a < b := by
  unfold Nat.blt
  rw [Nat.ble_eq]
  omega

theorem onN_eq (n : Nat) (h : n < 256) : On_Board (n : Int) = onN n := by
  unfold On_Board onN
  have e : ((n : Int) % 256).toNat = n := by omega
  rw [e, Bool.eq_iff_iff, nat_beq_iff, beq_iff_eq]

theorem specialN_eq (n : Nat) : Is_Special_Square (n : Int) = specialN n := by
  rw [Bool.eq_iff_iff]
  unfold Is_Special_Square specialN
  simp only [Bool.or_eq_true, beq_iff_eq, nat_beq_iff]
  omega

theorem adjN_eq (a b : Nat) : Adjacent (a : Int) (b : Int) = adjN a b := by
  rw [Bool.eq_iff_iff]
  unfold Adjacent adjN
  simp only [Bool.or_eq_true, beq_iff_eq, nat_beq_iff]
  omega

theorem bne_cast_eq (j i : Nat) : ((j : Int) != (i : Int)) = !Nat.beq j i := by
  rw [Bool.eq_iff_iff]
  simp only [bne_iff_ne, ne_eq, Bool.not_eq_true', ← Bool.not_eq_true, nat_beq_iff]
  omega

theorem hawkN_iff (a b c : Nat) :
    hawkN a b c = true ↔
      (c + 33 = b ∨ c + 31 = b ∨ c + 18 = b ∨ c + 14 = b ∨
        c = b + 14 ∨ c = b + 18 ∨ c = b + 31 ∨ c = b + 33) ∨
      ((c + 136 - b) % 17 = 0 ∧ c ≠ b ∧ ¬ ((c + 136 - a) % 17 = 0 ∧ b < a ∧ a < c) ∧
        ¬ ((c + 136 - a) % 17 = 0 ∧ c < a ∧ a < b)) ∨
      ((c + 120 - b) % 15 = 0 ∧ c ≠ b ∧ ¬ ((c + 120 - a) % 15 = 0 ∧ b < a ∧ a < c) ∧
        ¬ ((c + 120 - a) % 15 = 0 ∧ c < a ∧ a < b)) := by
  unfold hawkN
  simp only [Bool.or_eq_true, Bool.and_eq_true, Bool.not_eq_true', ← Bool.not_eq_true,
    nat_beq_iff, nat_blt_iff, or_assoc, and_assoc, ne_eq]

theorem hawkN_eq (a b c : Nat) (ha : a ≤ 120) (hb : b ≤ 120) :
    Hawk_Attacks (a : Int) (b : Int) (c : Int) = hawkN a b c := by
  rw [Bool.eq_iff_iff, Hawk_Attacks_iff, hawkN_iff]
  have k1 : ((c : Int) = b - 33 ∨ (c : Int) = b - 31 ∨ (c : Int) = b - 18 ∨ (c : Int) = b - 14 ∨
      (c : Int) = b + 14 ∨ (c : Int) = b + 18 ∨ (c : Int) = b + 31 ∨ (c : Int) = b + 33) ↔
      (c + 33 = b ∨ c + 31 = b ∨ c + 18 = b ∨ c + 14 = b ∨
        c = b + 14 ∨ c = b + 18 ∨ c = b + 31 ∨ c = b + 33) := by omega
  have d17 : ∀ x : Nat, x ≤ 120 → (((c : Int) - x) % 17 = 0 ↔ (c + 136 - x) % 17 = 0) := by
    intro x hx
    omega
  have d15 : ∀ x : Nat, x ≤ 120 → (((c : Int) - x) % 15 = 0 ↔ (c + 120 - x) % 15 = 0) := by
    intro x hx
    omega
  have ne : ((c : Int) ≠ b ↔ c ≠ b) := by omega
  have lt1 : ((b : Int) < a ↔ b < a) := by omega
  have lt2 : ((a : Int) < c ↔ a < c) := by omega
  have lt3 : ((c : Int) < a ↔ c < a) := by omega
  have lt4 : ((a : Int) < b ↔ a < b) := by omega
  rw [k1, d17 b hb, d17 a ha, d15 b hb, d15 a ha, ne, lt1, lt2, lt3, lt4]

theorem escapeN_eq (i j k s : Nat) (hi : i ≤ 120) (hk : k ≤ 120) (hj : j + s < 256)
    (c : Int) (hc : c = (j : Int) + (s : Int) - 17) :
    (On_Board c && !(Hawk_Attacks (i : Int) (k : Int) c || Adjacent (i : Int) c)) =
      escapeN i j k s := by
  unfold escapeN
  by_cases h : 17 ≤ j + s
  · have ec : c = ((j + s - 17 : Nat) : Int) := by omega
    have hb : Nat.ble 17 (j + s) = true := Nat.ble_eq_true_of_le h
    rw [ec, onN_eq _ (by omega), hawkN_eq i k _ hi hk, adjN_eq, hb, Bool.true_and]
  · have hf : On_Board c = false := by
      rw [On_Board_eq_false_iff]
      omega
    have hb : Nat.ble 17 (j + s) = false := by
      rw [← Bool.not_eq_true, Nat.ble_eq]
      exact h
    rw [hf, hb, Bool.false_and, Bool.false_and, Bool.false_and]

theorem matedN_eq (i j k : Nat) (hi : i ≤ 120) (hj : j ≤ 120) (hk : k ≤ 120) :
    Black_Is_Mated (i : Int) (j : Int) (k : Int) 0 = matedN i j k := by
  unfold Black_Is_Mated matedN
  simp only [bne_self_eq_false, Bool.false_eq_true, if_false, offsets, List.all_cons,
    List.all_nil, Bool.and_true]
  rw [escapeN_eq i j k 0 hi hk (by omega) ((j : Int) + -1 * 16 + -1) (by omega),
    escapeN_eq i j k 16 hi hk (by omega) ((j : Int) + 0 * 16 + -1) (by omega),
    escapeN_eq i j k 32 hi hk (by omega) ((j : Int) + 1 * 16 + -1) (by omega),
    escapeN_eq i j k 1 hi hk (by omega) ((j : Int) + -1 * 16 + 0) (by omega),
    escapeN_eq i j k 17 hi hk (by omega) ((j : Int) + 0 * 16 + 0) (by omega),
    escapeN_eq i j k 33 hi hk (by omega) ((j : Int) + 1 * 16 + 0) (by omega),
    escapeN_eq i j k 2 hi hk (by omega) ((j : Int) + -1 * 16 + 1) (by omega),
    escapeN_eq i j k 18 hi hk (by omega) ((j : Int) + 0 * 16 + 1) (by omega),
    escapeN_eq i j k 34 hi hk (by omega) ((j : Int) + 1 * 16 + 1) (by omega)]
  simp only [Bool.and_assoc]

theorem sumTo_congr (N : Nat) (f g : Nat → Nat) (h : ∀ n, n < N → f n = g n) :
    sumTo f N = sumTo g N := by
  induction N with
  | zero => rfl
  | succ N ih =>
    show sumTo f N + f N = sumTo g N + g N
    rw [ih (fun n hn => h n (Nat.lt_succ_of_lt hn)), h N (Nat.lt_succ_self N)]

theorem length_flatMap_range (f : Int → List Rec) (N : Nat) :
    ((List.map (fun n : Nat => (n : Int)) (List.range N)).flatMap f).length =
      sumTo (fun n => (f (n : Int)).length) N := by
  induction N with
  | zero => rfl
  | succ N ih =>
    rw [List.range_succ, List.map_append, List.flatMap_append, List.length_append, ih]
    simp [sumTo, List.flatMap_cons]

theorem length_ite_nil (c : Bool) (l : List Rec) :
    (if c = true then l else []).length = cond c l.length 0 := by
  cases c <;> rfl

/-- The number of records collected by the three loops, as a sum over naturals. -/
theorem length_Enumerate (cell : Int → Int → Int → List Rec) :
    (Enumerate cell).length = countN fun i j k => (cell (i : Int) (j : Int) (k : Int)).length := by
  unfold Enumerate countN squares_loop
  rw [length_flatMap_range]
  refine sumTo_congr 0x78 _ _ (fun i hi => ?_)
  rw [length_ite_nil, length_flatMap_range, onN_eq i (by omega), specialN_eq]
  refine congrArg (fun x => cond _ x 0) ?_
  unfold rowN
  refine sumTo_congr 0x78 _ _ (fun j hj => ?_)
  unfold rowCellN
  rw [length_ite_nil, length_flatMap_range, onN_eq j (by omega), bne_cast_eq, adjN_eq]
  have e : ((adjN i j) == false) = !adjN i j := by cases adjN i j <;> rfl
  rw [e]
  refine congrArg (fun x => cond _ x 0) ?_
  refine sumTo_congr 0x78 _ _ (fun k hk => ?_)
  rw [length_ite_nil, onN_eq k (by omega), bne_cast_eq, bne_cast_eq]

theorem sumTo_congr3 (cnt cnt' : Nat → Nat → Nat → Nat)
    (h : ∀ i j k, i < 0x78 → j < 0x78 → k < 0x78 → cnt i j k = cnt' i j k) :
    countN cnt = countN cnt' := by
  unfold countN
  refine sumTo_congr 0x78 _ _ (fun i hi => ?_)
  refine congrArg (fun x => cond _ x 0) ?_
  unfold rowN
  refine sumTo_congr 0x78 _ _ (fun j hj => ?_)
  unfold rowCellN
  refine congrArg (fun x => cond _ x 0) ?_
  refine sumTo_congr 0x78 _ _ (fun k hk => ?_)
  rw [h i j k hi hj hk]

theorem length_mate_file :
    Create_KHK_Positions.mate_file.length = countN fun i j k => cond (matedN i j k) 1 0 := by
  rw [Create_KHK_Positions_eq, length_Enumerate]
  refine sumTo_congr3 _ _ (fun i j k hi hj hk => ?_)
  unfold Create_mate_records
  rw [matedN_eq i j k (by omega) (by omega) (by omega)]
  cases matedN i j k <;> rfl

theorem length_pos_file :
    Create_KHK_Positions.pos_file.length =
      countN fun i j k => cond (matedN i j k) 0 1 + cond (hawkN i k j) 0 1 := by
  rw [Create_KHK_Positions_eq, length_Enumerate]
  refine sumTo_congr3 _ _ (fun i j k hi hj hk => ?_)
  unfold Create_pos_records
  rw [matedN_eq i j k (by omega) (by omega) (by omega),
    hawkN_eq i k j (by omega) (by omega)]
  cases matedN i j k <;> cases hawkN i k j <;> rfl

/-! ## Evaluating the counts, one white-king square at a time -/

theorem countN_eq_rows (cnt : Nat → Nat → Nat → Nat) :
    countN cnt = sumTo (fun i => cond (onN i && specialN i) (rowN cnt i) 0) 0x78 := rfl

theorem sumTo_cond_filter (g : Nat → Bool) (X : Nat → Nat) (N : Nat) :
    sumTo (fun i => cond (g i) (X i) 0) N = (((List.range N).filter g).map X).sum := by
  induction N with
  | zero => rfl
  | succ N ih =>
    rw [List.range_succ, List.filter_append, List.map_append, List.sum_append, ← ih]
    show sumTo (fun i => cond (g i) (X i) 0) N + cond (g N) (X N) 0 = _
    cases hg : g N <;> simp [List.filter_cons, hg]

theorem special_rows :
    (List.range 0x78).filter (fun i => onN i && specialN i) =
      [0, 1, 2, 3, 17, 18, 19, 34, 35, 51] := by
  decide!

/-- Only the ten special squares contribute to the count. -/
theorem countN_rows (cnt : Nat → Nat → Nat → Nat) :
    countN cnt = rowN cnt 0 + rowN cnt 1 + rowN cnt 2 + rowN cnt 3 + rowN cnt 17 +
      rowN cnt 18 + rowN cnt 19 + rowN cnt 34 + rowN cnt 35 + rowN cnt 51 := by
  rw [countN_eq_rows, sumTo_cond_filter, special_rows]
  simp only [List.map_cons, List.map_nil, List.sum_cons, List.sum_nil]
  omega

theorem sumTo_cond_lin (g : Nat → Bool) (c : Nat) (A B : Nat → Nat) (N : Nat) :
    sumTo (fun n => cond (g n) (c * A n + B n) 0) N =
      c * sumTo (fun n => cond (g n) (A n) 0) N + sumTo (fun n => cond (g n) (B n) 0) N := by
  induction N with
  | zero => rfl
  | succ N ih =>
    show sumTo (fun n => cond (g n) (c * A n + B n) 0) N + cond (g N) (c * A N + B N) 0 =
      c * (sumTo (fun n => cond (g n) (A n) 0) N + cond (g N) (A N) 0) +
        (sumTo (fun n => cond (g n) (B n) 0) N + cond (g N) (B N) 0)
    rw [ih]
    cases g N
    · simp only [cond_false, Nat.add_zero]
    · simp only [cond_true]
      rw [Nat.mul_add]
      omega

theorem countN_lin (c : Nat) (a b : Nat → Nat → Nat → Nat) :
    (countN fun i j k => c * a i j k + b i j k) = c * countN a + countN b := by
  unfold countN rowN rowCellN
  simp only [sumTo_cond_lin]

theorem sumTo_cond_le (g : Nat → Bool) (f : Nat → Nat) (B : Nat) (h : ∀ n, f n ≤ B) (N : Nat) :
    sumTo (fun n => cond (g n) (f n) 0) N ≤ N * B := by
  induction N with
  | zero => exact Nat.zero_le _
  | succ N ih =>
    show sumTo (fun n => cond (g n) (f n) 0) N + cond (g N) (f N) 0 ≤ (N + 1) * B
    have h1 : cond (g N) (f N) 0 ≤ B := by
      cases g N
      · exact Nat.zero_le _
      · exact h N
    rw [Nat.add_mul, Nat.one_mul]
    omega

theorem countN_le (cnt : Nat → Nat → Nat → Nat) (B : Nat) (h : ∀ i j k, cnt i j k ≤ B) :
    countN cnt ≤ 0x78 * (0x78 * (0x78 * B)) := by
  unfold countN rowN rowCellN
  exact sumTo_cond_le _ _ _
    (fun i => sumTo_cond_le _ _ _ (fun j => sumTo_cond_le _ _ _ (fun k => h i j k) _) _) _

theorem sumTo_split (f : Nat → Nat) (a b : Nat) :
    sumTo f (a + b) = sumTo f a + sumTo (fun n => f (a + n)) b := by
  induction b with
  | zero => rfl
  | succ b ih =>
    show sumTo f (a + b) + f (a + b) = sumTo f a + (sumTo (fun n => f (a + n)) b + f (a + b))
    rw [ih]
    omega

/-- A row of the count in three parts of 40 black-king squares. -/
theorem rowN_parts (cnt : Nat → Nat → Nat → Nat) (i : Nat) :
    rowN cnt i = sumTo (rowCellN cnt i) 40 + sumTo (fun n => rowCellN cnt i (40 + n)) 40 +
      sumTo (fun n => rowCellN cnt i (80 + n)) 40 := by
  unfold rowN
  rw [show (0x78 : Nat) = 80 + 40 from rfl, sumTo_split, show (80 : Nat) = 40 + 40 from rfl,
    sumTo_split]

/-- The count evaluated for one triple: `2 ^ 32` for a mate record, 1 for a
black-to-move record of `KHK.pos`, plus 1 for a white-to-move record. -/
theorem cell_split (i j k : Nat) :
    cond (matedN i j k) 4294967296 1 + cond (hawkN i k j) 0 1 =
      4294967296 * cond (matedN i j k) 1 0 +
        (cond (matedN i j k) 0 1 + cond (hawkN i k j) 0 1) := by
  cases matedN i j k <;> cases hawkN i k j <;> rfl

theorem row_0_part_0 :
    sumTo (rowCellN (fun i j k => cond (matedN i j k) 4294967296 1 + cond (hawkN i k j) 0 1) 0) 40 =
      5 * 4294967296 + 2204 := by
  decide!

theorem row_0_part_1 :
    sumTo (fun n => rowCellN (fun i j k => cond (matedN i j k) 4294967296 1 + cond (hawkN i k j) 0 1) 0 (40 + n)) 40 =
      0 * 4294967296 + 1722 := by
  decide!

theorem row_0_part_2 :
    sumTo (fun n => rowCellN (fun i j k => cond (matedN i j k) 4294967296 1 + cond (hawkN i k j) 0 1) 0 (80 + n)) 40 =
      2 * 4294967296 + 2661 := by
  decide!

theorem row_1_part_0 :
    sumTo (rowCellN (fun i j k => cond (matedN i j k) 4294967296 1 + cond (hawkN i k j) 0 1) 1) 40 =
      5 * 4294967296 + 1983 := by
  decide!

theorem row_1_part_1 :
    sumTo (fun n => rowCellN (fun i j k => cond (matedN i j k) 4294967296 1 + cond (hawkN i k j) 0 1) 1 (40 + n)) 40 =
      0 * 4294967296 + 1722 := by
  decide!

theorem row_1_part_2 :
    sumTo (fun n => rowCellN (fun i j k => cond (matedN i j k) 4294967296 1 + cond (hawkN i k j) 0 1) 1 (80 + n)) 40 =
      2 * 4294967296 + 2660 := by
  decide!

theorem row_2_part_0 :
    sumTo (rowCellN (fun i j k => cond (matedN i j k) 4294967296 1 + cond (hawkN i k j) 0 1) 2) 40 =
      5 * 4294967296 + 1992 := by
  decide!

theorem row_2_part_1 :
    sumTo (fun n => rowCellN (fun i j k => cond (matedN i j k) 4294967296 1 + cond (hawkN i k j) 0 1) 2 (40 + n)) 40 =
      0 * 4294967296 + 1722 := by
  decide!

theorem row_2_part_2 :
    sumTo (fun n => rowCellN (fun i j k => cond (matedN i j k) 4294967296 1 + cond (hawkN i k j) 0 1) 2 (80 + n)) 40 =
      2 * 4294967296 + 2659 := by
  decide!

theorem row_3_part_0 :
    sumTo (rowCellN (fun i j k => cond (matedN i j k) 4294967296 1 + cond (hawkN i k j) 0 1) 3) 40 =
      5 * 4294967296 + 1995 := by
  decide!

theorem row_3_part_1 :
    sumTo (fun n => rowCellN (fun i j k => cond (matedN i j k) 4294967296 1 + cond (hawkN i k j) 0 1) 3 (40 + n)) 40 =
      0 * 4294967296 + 1723 := by
  decide!

theorem row_3_part_2 :
    sumTo (fun n => rowCellN (fun i j k => cond (matedN i j k) 4294967296 1 + cond (hawkN i k j) 0 1) 3 (80 + n)) 40 =
      2 * 4294967296 + 2658 := by
  decide!

theorem row_17_part_0 :
    sumTo (rowCellN (fun i j k => cond (matedN i j k) 4294967296 1 + cond (hawkN i k j) 0 1) 17) 40 =
      3 * 4294967296 + 1656 := by
  decide!

theorem row_17_part_1 :
    sumTo (fun n => rowCellN (fun i j k => cond (matedN i j k) 4294967296 1 + cond (hawkN i k j) 0 1) 17 (40 + n)) 40 =
      2 * 4294967296 + 1724 := by
  decide!

theorem row_17_part_2 :
    sumTo (fun n => rowCellN (fun i j k => cond (matedN i j k) 4294967296 1 + cond (hawkN i k j) 0 1) 17 (80 + n)) 40 =
      2 * 4294967296 + 2664 := by
  decide!

theorem row_18_part_0 :
    sumTo (rowCellN (fun i j k => cond (matedN i j k) 4294967296 1 + cond (hawkN i k j) 0 1) 18) 40 =
      5 * 4294967296 + 1671 := by
  decide!

theorem row_18_part_1 :
    sumTo (fun n => rowCellN (fun i j k => cond (matedN i j k) 4294967296 1 + cond (hawkN i k j) 0 1) 18 (40 + n)) 40 =
      0 * 4294967296 + 1728 := by
  decide!

theorem row_18_part_2 :
    sumTo (fun n => rowCellN (fun i j k => cond (matedN i j k) 4294967296 1 + cond (hawkN i k j) 0 1) 18 (80 + n)) 40 =
      2 * 4294967296 + 2662 := by
  decide!

theorem row_19_part_0 :
    sumTo (rowCellN (fun i j k => cond (matedN i j k) 4294967296 1 + cond (hawkN i k j) 0 1) 19) 40 =
      5 * 4294967296 + 1678 := by
  decide!

theorem row_19_part_1 :
    sumTo (fun n => rowCellN (fun i j k => cond (matedN i j k) 4294967296 1 + cond (hawkN i k j) 0 1) 19 (40 + n)) 40 =
      0 * 4294967296 + 1730 := by
  decide!

theorem row_19_part_2 :
    sumTo (fun n => rowCellN (fun i j k => cond (matedN i j k) 4294967296 1 + cond (hawkN i k j) 0 1) 19 (80 + n)) 40 =
      2 * 4294967296 + 2660 := by
  decide!

theorem row_34_part_0 :
    sumTo (rowCellN (fun i j k => cond (matedN i j k) 4294967296 1 + cond (hawkN i k j) 0 1) 34) 40 =
      1 * 4294967296 + 2024 := by
  decide!

theorem row_34_part_1 :
    sumTo (fun n => rowCellN (fun i j k => cond (matedN i j k) 4294967296 1 + cond (hawkN i k j) 0 1) 34 (40 + n)) 40 =
      0 * 4294967296 + 1413 := by
  decide!

theorem row_34_part_2 :
    sumTo (fun n => rowCellN (fun i j k => cond (matedN i j k) 4294967296 1 + cond (hawkN i k j) 0 1) 34 (80 + n)) 40 =
      2 * 4294967296 + 2667 := by
  decide!

theorem row_35_part_0 :
    sumTo (rowCellN (fun i j k => cond (matedN i j k) 4294967296 1 + cond (hawkN i k j) 0 1) 35) 40 =
      2 * 4294967296 + 2029 := by
  decide!

theorem row_35_part_1 :
    sumTo (fun n => rowCellN (fun i j k => cond (matedN i j k) 4294967296 1 + cond (hawkN i k j) 0 1) 35 (40 + n)) 40 =
      0 * 4294967296 + 1419 := by
  decide!

theorem row_35_part_2 :
    sumTo (fun n => rowCellN (fun i j k => cond (matedN i j k) 4294967296 1 + cond (hawkN i k j) 0 1) 35 (80 + n)) 40 =
      2 * 4294967296 + 2667 := by
  decide!

theorem row_51_part_0 :
    sumTo (rowCellN (fun i j k => cond (matedN i j k) 4294967296 1 + cond (hawkN i k j) 0 1) 51) 40 =
      2 * 4294967296 + 2365 := by
  decide!

theorem row_51_part_1 :
    sumTo (fun n => rowCellN (fun i j k => cond (matedN i j k) 4294967296 1 + cond (hawkN i k j) 0 1) 51 (40 + n)) 40 =
      0 * 4294967296 + 1100 := by
  decide!

theorem row_51_part_2 :
    sumTo (fun n => rowCellN (fun i j k => cond (matedN i j k) 4294967296 1 + cond (hawkN i k j) 0 1) 51 (80 + n)) 40 =
      2 * 4294967296 + 2680 := by
  decide!

/-- The two counts of the enumeration: 60 mate records and 62238 others. -/
theorem countN_values :
    (countN fun i j k => cond (matedN i j k) 1 0) = 60 ∧
      (countN fun i j k => cond (matedN i j k) 0 1 + cond (hawkN i k j) 0 1) = 62238 := by
  have hb : (countN fun i j k => cond (matedN i j k) 0 1 + cond (hawkN i k j) 0 1) ≤
      0x78 * (0x78 * (0x78 * 2)) := by
    refine countN_le _ 2 (fun i j k => ?_)
    cases matedN i j k <;> cases hawkN i k j <;> decide
  have hs := countN_rows
    (fun i j k => cond (matedN i j k) 4294967296 1 + cond (hawkN i k j) 0 1)
  simp only [rowN_parts] at hs
  rw [row_0_part_0, row_0_part_1, row_0_part_2, row_1_part_0, row_1_part_1, row_1_part_2, row_2_part_0, row_2_part_1, row_2_part_2, row_3_part_0, row_3_part_1, row_3_part_2, row_17_part_0, row_17_part_1, row_17_part_2, row_18_part_0, row_18_part_1, row_18_part_2, row_19_part_0, row_19_part_1, row_19_part_2, row_34_part_0, row_34_part_1, row_34_part_2, row_35_part_0, row_35_part_1, row_35_part_2, row_51_part_0, row_51_part_1, row_51_part_2] at hs
  have hl := countN_lin 4294967296 (fun i j k => cond (matedN i j k) 1 0)
    (fun i j k => cond (matedN i j k) 0 1 + cond (hawkN i k j) 0 1)
  simp only [← cell_split] at hl
  rw [hs] at hl
  omega

/-- C14 (what the code writes): `Create_KHK_Positions` writes 60 records to
`KHK.0`, not the 41 of its comment. -/
theorem mate_file_length :
    Create_KHK_Positions.mate_file.length = 60 ∧
      Create_KHK_Positions.mate_file.length ≠ 41 := by
  rw [length_mate_file, countN_values.1]
  exact ⟨rfl, by decide⟩

/-- C15 (what the code writes): `Create_KHK_Positions` writes 62238 records to
`KHK.pos`, not the 59404 of its comment. -/
theorem pos_file_length :
    Create_KHK_Positions.pos_file.length = 62238 ∧
      Create_KHK_Positions.pos_file.length ≠ 59404 := by
  rw [length_pos_file, countN_values.2]
  exact ⟨rfl, by decide⟩

end KHK
